import Mathlib

/-!
# blackss2/webserver: template store, layout composer and static asset server

A shallow embedding of `webserver.go`.  The Go standard library, `html/template`,
fiber and the file system are outside the repository; what the code needs from
them is either written out (string and path helpers, the execution of a parsed
template, fiber's response primitives) or taken as a field of `World`.
The mutex is not modelled: every operation runs to completion.
-/

namespace Webserver

/-! ## Strings and paths -/

/-- Go `os.IsPathSeparator`: the slash, and the platform separator. -/
def isPathSeparator (sep c : Char) : Bool := c == '/' || c == sep

/-- Loop of Go `filepath.Ext`, run over the reversed path: stop at the first
separator (no extension), return the suffix starting at the first dot met. -/
def extLoop (sep : Char) : List Char → List Char → List Char
  | [], _ => []
  | c :: rest, acc =>
    if isPathSeparator sep c then []
    else if c == '.' then c :: acc
    else extLoop sep rest (c :: acc)

/-- Go `filepath.Ext`. -/
def Ext (sep : Char) (path : String) : String :=
  String.mk (extLoop sep path.data.reverse [])

/-- Go `filepath.ToSlash`. -/
def ToSlash (sep : Char) (path : String) : String :=
  if sep == '/' then path
  else String.mk (path.data.map (fun c => if c == sep then '/' else c))

/-- Go `strings.HasPrefix`. -/
def HasPrefix (s p : String) : Bool := p.data.isPrefixOf s.data

/-- Go `strings.HasSuffix`. -/
def HasSuffix (s suffix : String) : Bool := suffix.data.reverse.isPrefixOf s.data.reverse

/-- Go `strings.TrimSuffix`. -/
def TrimSuffix (s suffix : String) : String :=
  if HasSuffix s suffix then String.mk (s.data.take (s.data.length - suffix.data.length))
  else s

/-- Go `strings.Contains` on character lists. -/
def containsChars (sub : List Char) : List Char → Bool
  | [] => sub.isEmpty
  | c :: cs => sub.isPrefixOf (c :: cs) || containsChars sub cs

/-- Go `strings.Contains`. -/
def Contains (s sub : String) : Bool := containsChars sub.data s.data

/-! ## Templates -/

/-- The value handed to a template execution (`binding interface{}`). -/
abbrev Binding := String

/-- One node of a parsed template: literal text, an action that calls a
function of the function table with no argument (`<% embed %>`), or any other
action, which prints a string computed from the binding or fails. -/
inductive Node where
  | text (s : String)
  | call (fn : String)
  | action (f : Binding → Except String String)

/-- Parse tree of one template. -/
abbrev Body := List Node

/-- Values of the function map.  `layoutStub` is the function `NewWebServer`
registers under the layout key, `marshal` its JSON helper, and
`layoutBody out tmpl binding` the closure `Render` installs:
`func() error { return tmpl.Execute(out, binding) }`, with the writer, the
template (its tree, absent for a template never parsed) and the binding it
captured. -/
inductive Func where
  | layoutStub
  | marshal
  | layoutBody (out : Nat) (tmpl : Option Body) (binding : Binding)

/-- What the parser makes of one text: the tree of the template itself and
the templates the text defines with `define` or `block`, by name. -/
structure Parsed where
  main : Body
  defined : List (String × Body)

/-- Go `unicode.IsSpace`. -/
def isSpace (c : Char) : Bool :=
  (9 ≤ c.toNat && c.toNat ≤ 13) || c.toNat == 32 || c.toNat == 133 || c.toNat == 160 ||
  c.toNat == 5760 || (8192 ≤ c.toNat && c.toNat ≤ 8202) || c.toNat == 8232 ||
  c.toNat == 8233 || c.toNat == 8239 || c.toNat == 8287 || c.toNat == 12288

/-- Go `parse.IsEmptyTree` on the nodes of a tree: only blank text. -/
def isEmptyTree : Body → Bool
  | [] => true
  | Node.text s :: rest => s.data.all isSpace && isEmptyTree rest
  | Node.call _ :: _ => false
  | Node.action _ :: _ => false

/-- Go map with string keys: the first entry for a key is the live one. -/
def mapSet {α : Type} (m : List (String × α)) (k : String) (v : α) : List (String × α) :=
  (k, v) :: m

/-- Go map read: `none` when the key is absent. -/
def mapGet {α : Type} (m : List (String × α)) (k : String) : Option α :=
  match m with
  | [] => none
  | (k1, v) :: rest => if k1 == k then some v else mapGet rest k

/-- The external world of the template store: the platform separator, the
live directory tree (`filepath.Walk` order and `ioutil.ReadFile`),
`filepath.Rel`, `filepath.Abs`, the `html/template` parser (delimiters, names
of the functions defined at parse time, source text) and the contextual
escaper `html/template` applies to a printed value. -/
structure World where
  separator : Char
  walk : String → List String
  readFile : String → Except String String
  rel : String → String → Except String String
  abs : String → Except String String
  parse : String → String → List String → String → Except String Parsed
  escape : String → String

/-- The embedded snapshot (`embed.FS`): the paths `fs.WalkDir(fs, ".")` visits,
in order, and `ReadFile`. -/
structure EmbedFS where
  paths : List String
  readFile : String → Option (List UInt8)

/-- A `*template.Template` set: root name, delimiters, the function table
shared by all its templates, and the name space.  A name maps to `none` while
the template has no parse tree. -/
structure TemplateSet where
  name : String
  left : String
  right : String
  funcs : List (String × Func)
  tmpl : List (String × Option Body)

/-- `template.New(name)` of `html/template`: the root is registered under its
own name, with no tree. -/
def TemplateSet.new (name : String) : TemplateSet :=
  ⟨name, "", "", [], [(name, none)]⟩

/-- `(*Template).Delims`. -/
def TemplateSet.Delims (t : TemplateSet) (l r : String) : TemplateSet :=
  { t with left := l, right := r }

/-- `(*Template).Funcs`: every entry of the map is added to the shared table. -/
def TemplateSet.Funcs (t : TemplateSet) (m : List (String × Func)) : TemplateSet :=
  { t with funcs := m ++ t.funcs }

/-- `(*Template).Lookup` of `html/template`: the entry of the name space,
`none` for Go's nil. -/
def TemplateSet.Lookup (t : TemplateSet) (name : String) : Option (Option Body) :=
  mapGet t.tmpl name

/-- `AddParseTree` with `associate` of `text/template`, as the set shows it
after `Parse`: the tree is registered under the name, except that an empty
tree does not replace a tree already there. -/
def TemplateSet.associate (t : TemplateSet) (name : String) (tree : Body) : TemplateSet :=
  match mapGet t.tmpl name with
  | some (some _) =>
    if isEmptyTree tree then t else { t with tmpl := mapSet t.tmpl name (some tree) }
  | _ => { t with tmpl := mapSet t.tmpl name (some tree) }

/-- `t.New(name).Parse(src)`: the new template is registered first, then
parsed; a parse error leaves it registered without a tree, and a success
registers its tree and every template the text defines. -/
def TemplateSet.NewParse (w : World) (t : TemplateSet) (name src : String) :
    TemplateSet × Option String :=
  match w.parse t.left t.right (t.funcs.map Prod.fst) src with
  | .ok p => (p.defined.foldl (fun s d => s.associate d.1 d.2) (t.associate name p.main), none)
  | .error e => ({ t with tmpl := mapSet t.tmpl name none }, some e)

/-- How a call ends when it does not succeed: with a Go error returned to the
caller, or with the death of the process (a nil dereference, the stack
exhausted by unbounded nesting). -/
inductive Failure where
  | error (msg : String)
  | crash (msg : String)
  deriving DecidableEq

/-- Output streams (`io.Writer`), by identity: what each has received so far. -/
abbrev Outs := Nat → String

/-- `Write` on the stream `out`. -/
def Outs.write (o : Outs) (out : Nat) (s : String) : Outs :=
  fun i => if i = out then o i ++ s else o i

/-- Executor of a template (`callee`) used for the closures of the function
table: it gets the function table, the tree, the binding, the writer and the
streams, and returns the streams and Go's error (`none` for nil). -/
abbrev Exec :=
  List (String × Func) → Option Body → Binding → Nat → Outs → Outs × Option Failure

/-- Execution of the nodes of one template into `out`.  A function with one
result is called and its result printed (`text/template` takes a result for an
error only when it is the second of two): the error of `layoutStub` and an
error of the body inside `layoutBody` are printed, escaped, and a nil error
prints nothing; a crash inside the closure is a crash of the whole.
`marshal` wants one argument. -/
def execNodes (w : World) (callee : Exec) (funcs : List (String × Func)) :
    Body → Binding → Nat → Outs → Outs × Option Failure
  | [], _, _, o => (o, none)
  | Node.text s :: rest, b, out, o => execNodes w callee funcs rest b out (o.write out s)
  | Node.action f :: rest, b, out, o =>
    match f b with
    | .ok s => execNodes w callee funcs rest b out (o.write out s)
    | .error e => (o, some (Failure.error e))
  | Node.call fn :: rest, b, out, o =>
    match mapGet funcs fn with
    | none => (o, some (Failure.error (fn ++ " is not a defined function")))
    | some Func.marshal =>
      (o, some (Failure.error "wrong number of args for marshal: want 1 got 0"))
    | some Func.layoutStub =>
      execNodes w callee funcs rest b out (o.write out (w.escape "layout called unexpectedly"))
    | some (Func.layoutBody out1 tmpl1 b1) =>
      match callee funcs tmpl1 b1 out1 o with
      | (o1, none) => execNodes w callee funcs rest b out o1
      | (o1, some (Failure.error e)) =>
        execNodes w callee funcs rest b out (o1.write out (w.escape e))
      | (o1, some (Failure.crash e)) => (o1, some (Failure.crash e))

/-- `(*Template).Execute`: a template without a tree cannot be executed. -/
def executeWith (w : World) (callee : Exec) : Exec :=
  fun funcs tmpl b out o =>
    match tmpl with
    | none => (o, some (Failure.error "incomplete or empty template"))
    | some body => execNodes w callee funcs body b out o

/-- `(*Template).Execute` with a bound on the depth of nested closure calls;
Go has none: where the bound is reached the outcome is a crash, which stands
for a nesting too deep for the bound or without end. -/
def execute (w : World) : Nat → Exec
  | 0 => executeWith w (fun _ _ _ _ o => (o, some (Failure.crash "stack overflow")))
  | fuel + 1 => executeWith w (execute w fuel)

/-! ## The template store -/

/-- The `WebServer` struct, without the mutex, the fiber app and the session
store. -/
structure WebServer where
  left : String
  right : String
  directory : String
  extension : String
  layout : String
  loaded : Bool
  reload : Bool
  debug : Bool
  watch : Bool
  funcmap : List (String × Func)
  Templates : Option TemplateSet
  embedFiles : Option EmbedFS

/-- `AddFunc`. -/
def AddFunc (web : WebServer) (name : String) (fn : Func) : WebServer :=
  { web with funcmap := mapSet web.funcmap name fn }

/-- `Layout`. -/
def Layout (web : WebServer) (key : String) : WebServer :=
  { web with layout := key }

/-- The callback `NewWebServer` gives to the file watcher. -/
def onFileEvent (w : World) (web : WebServer) (path : String) : WebServer :=
  if HasPrefix (Ext w.separator path) ".htm" then { web with reload := true } else web

/-- Outcome of a walk of `Load`: the set as the walk left it, the error, and
the paths given to `ReadFile`. -/
structure WalkResult where
  set : TemplateSet
  err : Option String
  reads : List String

/-- The closure `handler` of `Load`, on the set being built; of the store it
reads `directory` and `extension` (and `debug`, for a log line only). -/
def loadHandler (w : World) (directory extension : String) (t : TemplateSet) (path : String) :
    WalkResult :=
  if Ext w.separator path == extension then
    match w.rel directory path with
    | .error e => ⟨t, some e, []⟩
    | .ok rel =>
      match w.readFile path with
      | .error e => ⟨t, some e, [path]⟩
      | .ok data =>
        let name := ToSlash w.separator rel
        let name := TrimSuffix name extension
        match t.NewParse w name data with
        | (t1, some e) => ⟨t1, some e, [path]⟩
        | (t1, none) => ⟨t1, none, [path]⟩
  else ⟨t, none, []⟩

/-- `filepath.Walk` / `fs.WalkDir` with the callback of `Load`: the first
error stops the walk. -/
def walkLoad (w : World) (directory extension : String) :
    TemplateSet → List String → WalkResult
  | t, [] => ⟨t, none, []⟩
  | t, p :: ps =>
    match loadHandler w directory extension t p with
    | ⟨t1, some e, r⟩ => ⟨t1, some e, r⟩
    | ⟨t1, none, r⟩ =>
      let res := walkLoad w directory extension t1 ps
      ⟨res.set, res.err, r ++ res.reads⟩

/-- Outcome of `Load`: the store, the returned error, whether a new set was
created (the call got past the `loaded` guard) and the paths read. -/
structure LoadResult where
  web : WebServer
  err : Option String
  compiled : Bool
  reads : List String

/-- `Load`. -/
def Load (w : World) (web : WebServer) : LoadResult :=
  if web.loaded then ⟨web, none, false, []⟩
  else
    let t := TemplateSet.new web.directory
    let t := t.Delims web.left web.right
    let t := t.Funcs web.funcmap
    let web := { web with Templates := some t, loaded := true }
    if web.watch then
      let r := walkLoad w web.directory web.extension t (w.walk web.directory)
      ⟨{ web with Templates := some r.set }, r.err, true, r.reads⟩
    else
      match web.embedFiles with
      | some fs =>
        let r := walkLoad w web.directory web.extension t fs.paths
        ⟨{ web with Templates := some r.set }, r.err, true, r.reads⟩
      | none => ⟨web, none, true, []⟩

/-- `NewWebServer`; `isDir` is the outcome of `os.Stat(directory)` being a
directory.  `none` stands for `log.Fatalln`.  `fiber.New` with `Views: web`
calls `web.Load()` and only prints its error, so the store is returned after
that `Load`. -/
def NewWebServer (w : World) (directory : String) (embedFiles : Option EmbedFS)
    (isDir : Bool) : Option WebServer :=
  let web : WebServer :=
    { left := "<%", right := "%>", directory := directory, extension := ".html",
      layout := "embed", loaded := false, reload := false, debug := false, watch := false,
      funcmap := [], Templates := none, embedFiles := embedFiles }
  let web := AddFunc web web.layout Func.layoutStub
  let web := AddFunc web "marshal" Func.marshal
  if isDir then
    match w.abs web.directory with
    | .error _ => none
    | .ok _ => some (Load w { web with watch := true }).web
  else some (Load w web).web

/-- Outcome of `Render`: the store, the streams, the returned error, and what
the `Load` inside did. -/
structure RenderResult where
  web : WebServer
  outs : Outs
  err : Option Failure
  compiled : Bool
  reads : List String

/-- The part of `Render` after the load: lookups, installation of the layout
closure, execution.  A nil `Templates` cannot be looked up. -/
def renderLoaded (w : World) (fuel : Nat) (web : WebServer) (o : Outs) (out : Nat)
    (template : String) (binding : Binding) (layout : List String) :
    WebServer × Outs × Option Failure :=
  match web.Templates with
  | none => (web, o, some (Failure.crash "nil pointer dereference"))
  | some ts =>
    match ts.Lookup template with
    | none =>
      (web, o, some (Failure.error ("render: template " ++ template ++ " does not exist")))
    | some tmpl =>
      if layout.length > 0 && layout.headD "" != "" then
        match ts.Lookup (layout.headD "") with
        | none =>
          (web, o,
            some (Failure.error ("render: layout " ++ layout.headD "" ++ " does not exist")))
        | some lay =>
          let ts1 := ts.Funcs [(web.layout, Func.layoutBody out tmpl binding)]
          let r := execute w fuel ts1.funcs lay binding out o
          ({ web with Templates := some ts1 }, r.1, r.2)
      else
        let r := execute w fuel ts.funcs tmpl binding out o
        (web, r.1, r.2)

/-- `Render`. -/
def Render (w : World) (fuel : Nat) (web : WebServer) (o : Outs) (out : Nat)
    (template : String) (binding : Binding) (layout : List String) : RenderResult :=
  if !web.loaded || web.reload then
    let web1 := if web.reload then { web with loaded := false } else web
    let l := Load w web1
    match l.err with
    | some e => ⟨l.web, o, some (Failure.error e), l.compiled, l.reads⟩
    | none =>
      let web2 := { l.web with reload := false }
      let r := renderLoaded w fuel web2 o out template binding layout
      ⟨r.1, r.2.1, r.2.2, l.compiled, l.reads⟩
  else
    let r := renderLoaded w fuel web o out template binding layout
    ⟨r.1, r.2.1, r.2.2, false, []⟩

/-! ## The static asset server -/

/-- Raw bytes of an asset or of a response body. -/
abbrev Bytes := List UInt8

/-- What the asset handler needs from outside the repository: the platform
separator, `path.Join`, `filepath.Abs`, fiber's `SendFile`, parsing and
formatting of `http.TimeFormat` (a time is its count of nanoseconds since the
epoch), the hexadecimal MD5 digest, `mime.TypeByExtension`,
`http.DetectContentType`, gzip compression, the text fiber gives a status, and
the modification time `Static` reads from the executable. -/
structure Host where
  separator : Char
  pathJoin : String → String → String
  abs : String → Except String String
  parseTime : String → Option Int
  formatTime : Int → String
  md5hex : Bytes → String
  typeByExtension : String → String
  detectContentType : Bytes → String
  gzip : Bytes → Bytes
  statusMessage : Nat → Bytes
  executableModTime : Int

/-- The request as the handler sees it: the wildcard parameter and the
headers. -/
structure Request where
  param : String
  headers : List (String × String)

/-- The response under construction. -/
structure Response where
  status : Nat
  headers : List (String × String)
  body : Bytes

/-- A `*fiber.Ctx`. -/
structure Ctx where
  req : Request
  resp : Response

/-- fiber `c.Get`: a header of the request, the empty string when absent. -/
def Ctx.Get (c : Ctx) (key : String) : String := (mapGet c.req.headers key).getD ""

/-- fiber `c.Set`: sets a header of the response. -/
def Ctx.Set (c : Ctx) (key val : String) : Ctx :=
  { c with resp := { c.resp with headers := mapSet c.resp.headers key val } }

/-- A header of the response, the empty string when absent. -/
def Response.header (r : Response) (key : String) : String := (mapGet r.headers key).getD ""

/-- fiber `c.Status` and fasthttp `SetStatusCode`. -/
def Ctx.Status (c : Ctx) (status : Nat) : Ctx :=
  { c with resp := { c.resp with status := status } }

/-- fasthttp `SetBodyString`. -/
def Ctx.SetBody (c : Ctx) (b : Bytes) : Ctx :=
  { c with resp := { c.resp with body := b } }

/-- `c.Response().BodyWriter().Write`: appends to the body. -/
def Ctx.WriteBody (c : Ctx) (b : Bytes) : Ctx :=
  { c with resp := { c.resp with body := c.resp.body ++ b } }

/-- fiber `c.SendStatus`: sets the status and, when the body is empty, puts
the text of the status there. -/
def Ctx.SendStatus (hw : Host) (c : Ctx) (status : Nat) : Ctx :=
  let c := c.Status status
  if c.resp.body.length == 0 then c.SetBody (hw.statusMessage status) else c

/-- fasthttp `mustSkipBody`: no body is transmitted with a 1xx, 204 or 304
status. -/
def mustSkipBody (status : Nat) : Bool :=
  if status < 100 || status == 200 then false
  else status == 304 || status == 204 || status < 200

/-- The body as transmitted to the client. -/
def Response.sentBody (r : Response) : Bytes := if mustSkipBody r.status then [] else r.body

/-- `io.Copy(dst, &buffer)` from a `bytes.Buffer`: the content moves to the
destination and the buffer is left drained. -/
def ioCopy (dst buffer : Bytes) : Bytes × Bytes := (dst ++ buffer, [])

/-- `time.Parse(http.TimeFormat, v)` succeeding with `t` such that
`executableModTime.Before(t.Add(1*time.Second))`. -/
def notModifiedSince (hw : Host) (v : String) : Bool :=
  match hw.parseTime v with
  | some t => decide (hw.executableModTime < t + 1000000000)
  | none => false

/-- The content type step of the handler: by extension, else sniffed from
the content, and set only when not empty. -/
def setContentType (hw : Host) (c : Ctx) (fname : String) (data : Bytes) : Ctx :=
  let ctype := hw.typeByExtension (Ext hw.separator fname)
  let ctype := if ctype == "" then hw.detectContentType data else ctype
  if ctype.length > 0 then c.Set "Content-Type" ctype else c

/-- The branch of the handler `h` that has the bytes of the asset: the two
conditional checks, the headers, and the body, compressed or raw. -/
def sendAsset (hw : Host) (c : Ctx) (fname : String) (data : Bytes) : Ctx × Option String :=
  if notModifiedSince hw (c.Get "If-Modified-Since") then (c.SendStatus hw 304, none)
  else
    let fileHash := hw.md5hex data
    if c.Get "If-None-Match" == fileHash then (c.SendStatus hw 304, none)
    else
      let c := c.Set "ETag" fileHash
      let c := c.Set "Last-Modified" (hw.formatTime hw.executableModTime)
      let c := setContentType hw c fname data
      let c := c.Status 200
      if data.length > 0 then
        if c.Get "Content-Encoding" == "" && Contains (c.Get "Accept-Encoding") "gzip" then
          let buffer := hw.gzip data
          let copied := ioCopy c.resp.body buffer
          let c := c.SetBody copied.1
          let c := c.Set "Content-Length" (Nat.repr copied.2.length)
          let c := c.Set "Content-Encoding" "gzip"
          (c, none)
        else
          let c := c.WriteBody data
          let c := c.Set "Content-Length" (Nat.repr data.length)
          (c, none)
      else
        (c.Set "Content-Length" "0", none)

/-- The handler `h` of `Static`; `embedPathMap` lists the keys of the map of
that name, `root` is `path.Join(web.directory, folder)`.  fiber's `SendFile`
is `sendFile`. -/
def assetHandler (hw : Host) (sendFile : String → Ctx → Ctx × Option String) (web : WebServer)
    (embedPathMap : List String) (root : String) (c : Ctx) : Ctx × Option String :=
  let fname := c.req.param
  let fpath := hw.pathJoin root fname
  if web.watch then
    match hw.abs fpath with
    | .error e => (c, some e)
    | .ok absPath => sendFile absPath c
  else
    match web.embedFiles with
    | some fs =>
      if !embedPathMap.contains fpath then (c.SendStatus hw 404, none)
      else
        match fs.readFile fpath with
        | none => (c.SendStatus hw 404, none)
        | some data => sendAsset hw c fname data
    | none => (c.SendStatus hw 404, none)

/-- Outcome of one handler: the context, the returned error, and whether it
ended in `return c.Next()`. -/
structure HandlerResult where
  ctx : Ctx
  err : Option String
  next : Bool

/-- A `fiber.Handler`. -/
abbrev Handler := Ctx → HandlerResult

/-- The asset handler as a member of a chain: it never calls `c.Next()`. -/
def asHandler (h : Ctx → Ctx × Option String) : Handler :=
  fun c => ⟨(h c).1, (h c).2, false⟩

/-- The handler `Static` puts first at the root mount. -/
def rootHandler (h : Ctx → Ctx × Option String) : Handler :=
  fun c =>
    let fname := c.req.param
    if fname.length > 0 then
      match h c with
      | (c1, some e) => ⟨c1, some e, false⟩
      | (c1, none) =>
        let status := c1.resp.status
        if status != 404 && status != 403 then ⟨c1, none, false⟩
        else
          let c2 := c1.Set "Content-Type" ""
          let c2 := c2.Status 200
          let c2 := c2.SetBody []
          ⟨c2, none, true⟩
    else ⟨c, none, true⟩

/-- A route registered with `app.Get`: the pattern and the handler chain. -/
structure Route where
  pattern : String
  handlers : List Handler

/-- `Static`: the route it registers.  `fs.WalkDir` on a nil `*embed.FS`
panics, which is `none`. -/
def Static (hw : Host) (sendFile : String → Ctx → Ctx × Option String) (web : WebServer)
    (pfx folder : String) (m : List Handler) : Option Route :=
  match web.embedFiles with
  | none => none
  | some fs =>
    let embedPathMap := fs.paths.map (ToSlash hw.separator)
    let root := hw.pathJoin web.directory folder
    let h := assetHandler hw sendFile web embedPathMap root
    if pfx == "/" then some ⟨"/*", [rootHandler h] ++ m⟩
    else some ⟨pfx ++ "/*", [asHandler h] ++ m⟩

/-- Outcome of a chain: the context, the error, the positions of the handlers
that were invoked, in order, and whether the last one passed on. -/
structure ChainResult where
  ctx : Ctx
  err : Option String
  invoked : List Nat
  passedOn : Bool

/-- fiber running a chain from position `i`: the next handler runs when the
current one ends in `c.Next()`. -/
def runChain : List Handler → Nat → Ctx → ChainResult
  | [], _, c => ⟨c, none, [], true⟩
  | h :: rest, i, c =>
    let r := h c
    if r.next then
      let r1 := runChain rest (i + 1) r.ctx
      ⟨r1.ctx, r1.err, i :: r1.invoked, r1.passedOn⟩
    else ⟨r.ctx, r.err, [i], false⟩

/-- The response a route starts from. -/
def freshResponse : Response := ⟨200, [], []⟩

/-- The context the first handler of a route gets for a request. -/
def requestCtx (req : Request) : Ctx := ⟨req, freshResponse⟩

/-- A request served by a route. -/
def serve (route : Route) (req : Request) : ChainResult :=
  runChain route.handlers 0 (requestCtx req)

/-! ## The compilation `Load` performs, and finished executions -/

/-- The paths `Load` walks: the live tree when watching, else the snapshot,
and nothing without a snapshot. -/
def sourcePaths (w : World) (web : WebServer) : List String :=
  if web.watch then w.walk web.directory
  else
    match web.embedFiles with
    | some fs => fs.paths
    | none => []

/-- A full compilation of the current content of the source: a fresh set with
the delimiters and the function map of the store, then every source path. -/
def compileSource (w : World) (web : WebServer) : WalkResult :=
  walkLoad w web.directory web.extension
    (((TemplateSet.new web.directory).Delims web.left web.right).Funcs web.funcmap)
    (sourcePaths w web)

/-- An outcome that is no crash. -/
def finished (r : Outs × Option Failure) : Bool :=
  match r.2 with
  | some (Failure.crash _) => false
  | _ => true

/-! ## Example worlds -/

/-- Cut a text at the first occurrence of a delimiter. -/
def cutAt (delim : List Char) : List Char → Option (List Char × List Char)
  | [] => none
  | c :: cs =>
    if delim.isPrefixOf (c :: cs) then some ([], (c :: cs).drop delim.length)
    else (cutAt delim cs).map (fun p => (c :: p.1, p.2))

/-- Drop the blanks around an action. -/
def trimBlanks (s : List Char) : List Char :=
  ((s.dropWhile (fun c => c == ' ')).reverse.dropWhile (fun c => c == ' ')).reverse

/-- Pieces of a template text: literal text, and the inside of an action. -/
inductive Token where
  | text (s : List Char)
  | act (s : List Char)

/-- Literal text as a token list; empty text gives no token. -/
def textToken (s : List Char) : List Token := if s.isEmpty then [] else [Token.text s]

/-- The text cut at its delimiters. -/
def tokens (left right : List Char) : Nat → List Char → Except String (List Token)
  | 0, _ => .error "input too long"
  | fuel + 1, src =>
    match cutAt left src with
    | none => .ok (textToken src)
    | some (before, rest) =>
      match cutAt right rest with
      | none => .error "unclosed action"
      | some (act, rest1) =>
        match tokens left right fuel rest1 with
        | .ok ts => .ok (textToken before ++ Token.act (trimBlanks act) :: ts)
        | .error e => .error e

/-- The name in an action `define "name"`. -/
def defineName (a : List Char) : Option String :=
  if ("define ".data ++ [Char.ofNat 34]).isPrefixOf a then
    some (String.mk ((a.drop 8).takeWhile (fun c => c != Char.ofNat 34)))
  else none

/-- The trees of a token list: `main` and `defs` are what is built so far,
`cur` the `define` that is open. -/
def buildTrees (defined : List String) :
    List Token → Body → List (String × Body) → Option (String × Body) → Except String Parsed
  | [], main, defs, none => .ok ⟨main, defs⟩
  | [], _, _, some _ => .error "unexpected EOF"
  | Token.text s :: rest, main, defs, none =>
    buildTrees defined rest (main ++ [Node.text (String.mk s)]) defs none
  | Token.text s :: rest, main, defs, some cur =>
    buildTrees defined rest main defs (some (cur.1, cur.2 ++ [Node.text (String.mk s)]))
  | Token.act a :: rest, main, defs, cur =>
    if a == "end".data then
      match cur with
      | some c => buildTrees defined rest main (defs ++ [c]) none
      | none => .error "unexpected end"
    else
      match defineName a with
      | some n =>
        match cur with
        | none => buildTrees defined rest main defs (some (n, []))
        | some _ => .error "unexpected define"
      | none =>
        if defined.contains (String.mk a) then
          match cur with
          | none => buildTrees defined rest (main ++ [Node.call (String.mk a)]) defs none
          | some c =>
            buildTrees defined rest main defs (some (c.1, c.2 ++ [Node.call (String.mk a)]))
        else .error ("function " ++ String.mk a ++ " not defined")

/-- The parser of the example worlds: literal text, actions that name one
function without argument, which has to be defined, and `define` ... `end`. -/
def fragmentParse (left right : String) (defined : List String) (src : String) :
    Except String Parsed :=
  match tokens left.data right.data (src.data.length + 1) src.data with
  | .ok ts => buildTrees defined ts [] [] none
  | .error e => .error e

/-- An example world over a directory tree given as its files, in walk order,
with their contents, on a platform with the separator `sep`. -/
def exampleWorldOn (sep : Char) (root : String) (files : List (String × String)) : World :=
  { separator := sep
    walk := fun r => if r == root then root :: files.map Prod.fst else []
    readFile := fun p =>
      match mapGet files p with
      | some d => .ok d
      | none => .error ("open " ++ p ++ ": no such file or directory")
    rel := fun base p =>
      if p == base then .ok "."
      else if HasPrefix p (base ++ String.singleton sep) then
        .ok (String.mk (p.data.drop (base.data.length + 1)))
      else .error "Rel: can not make the path relative"
    abs := fun p => .ok ("/srv/" ++ p)
    parse := fragmentParse
    escape := fun s => s }

/-- An example world on Unix. -/
def exampleWorld (root : String) (files : List (String × String)) : World :=
  exampleWorldOn '/' root files

/-- No stream has received anything. -/
def noOutput : Outs := fun _ => ""

/-- The store `NewWebServer` builds for the live directory `views`, before
`fiber.New` loads it. -/
def viewsServer : WebServer :=
  { left := "<%", right := "%>", directory := "views", extension := ".html", layout := "embed",
    loaded := false, reload := false, debug := false, watch := true,
    funcmap := [("marshal", Func.marshal), ("embed", Func.layoutStub)],
    Templates := none, embedFiles := none }

/-- A live directory with a layout and a body. -/
def layoutWorld : World :=
  exampleWorld "views"
    [("views/body.html", "X"), ("views/layout.html", "before|<% embed %>|after")]

/-- A live directory whose template `t` prints "A". -/
def worldA : World := exampleWorld "views" [("views/t.html", "A")]

/-- The same directory after `t` was edited to print "B". -/
def worldB : World := exampleWorld "views" [("views/t.html", "B")]

/-- A live directory whose second template calls a function that is not
defined, between two templates that parse. -/
def brokenWorld : World :=
  exampleWorld "views"
    [("views/a.html", "A"), ("views/bad.html", "<% nope %>"), ("views/z.html", "Z")]

/-- The store `NewWebServer` returns over `layoutWorld`. -/
def layoutServer : WebServer := (Load layoutWorld viewsServer).web

/-- The store `NewWebServer` returns over `worldA`. -/
def storeA : WebServer := (Load worldA viewsServer).web

/-- The store after `body` was rendered inside `layout` to stream 1. -/
def afterLayoutRender : WebServer :=
  (Render layoutWorld 1 layoutServer noOutput 1 "body" "b" ["layout"]).web

/-- ASCII text as bytes. -/
def asciiBytes (s : String) : Bytes := s.data.map (fun c => UInt8.ofNat c.toNat)

/-- An example host on Unix.  Its `pathJoin` joins clean paths, its time
functions know the two instants of the examples, and its digest and its
compressor are stand-ins for MD5 and gzip (a length tag, a two byte
header). -/
def exampleHost : Host :=
  { separator := '/'
    pathJoin := fun a b => if b == "" then a else a ++ "/" ++ b
    abs := fun p => .ok ("/srv/" ++ p)
    parseTime := fun v =>
      if v == "Thu, 01 Jan 1970 00:00:00 GMT" then some 0
      else if v == "Thu, 01 Jan 1970 00:00:01 GMT" then some 1000000000
      else none
    formatTime := fun t =>
      if t == 1000000000 then "Thu, 01 Jan 1970 00:00:01 GMT" else "Thu, 01 Jan 1970 00:00:00 GMT"
    md5hex := fun d => "digest-" ++ Nat.repr d.length
    typeByExtension := fun e => if e == ".js" then "text/javascript; charset=utf-8" else ""
    detectContentType := fun _ => "application/octet-stream"
    gzip := fun d => [31, 139] ++ d
    statusMessage := fun n =>
      if n == 404 then asciiBytes "Not Found"
      else if n == 304 then asciiBytes "Not Modified"
      else asciiBytes "OK"
    executableModTime := 1000000000 }

/-- An embedded snapshot with one script and one picture. -/
def exampleFS : EmbedFS :=
  { paths := [".", "web", "web/logo.svg", "web/static", "web/static/app.js"]
    readFile := fun p =>
      if p == "web/static/app.js" then some [1, 2, 3]
      else if p == "web/logo.svg" then some [60, 112, 62]
      else none }

/-- The store `NewWebServer` builds for the snapshot, `web` being no
directory on disk, before `fiber.New` loads it. -/
def embedStore : WebServer :=
  { left := "<%", right := "%>", directory := "web", extension := ".html", layout := "embed",
    loaded := false, reload := false, debug := false, watch := false,
    funcmap := [("marshal", Func.marshal), ("embed", Func.layoutStub)],
    Templates := none, embedFiles := some exampleFS }

/-- The store `NewWebServer` returns for the snapshot. -/
def embedServer : WebServer := (Load worldA embedStore).web

/-- A `SendFile` for the examples; the embedded mode never calls it. -/
def noSendFile : String → Ctx → Ctx × Option String := fun _ c => (c, none)

/-- The request for the script of `exampleFS`, with the given headers. -/
def scriptRequest (headers : List (String × String)) : Request := ⟨"app.js", headers⟩

/-- The picture of `exampleFS` mounted at the root, the folder being the
picture itself. -/
def pageRoute : Option Route := Static exampleHost noSendFile embedServer "/" "logo.svg" []

/-- An additional handler: it marks the response and passes on. -/
def markHandler : Handler := fun c => ⟨c.Set "X-Seen" "1", none, true⟩

/-- The snapshot mounted at the root with one additional handler. -/
def markedRoute : Option Route :=
  Static exampleHost noSendFile embedServer "/" "static" [markHandler]

/-! ## Lemmas -/

theorem mapGet_mapSet {α : Type} (m : List (String × α)) (k k1 : String) (v : α) :
    mapGet (mapSet m k v) k1 = if k == k1 then some v else mapGet m k1 := rfl

theorem mapGet_cons_self {α : Type} (m : List (String × α)) (k : String) (v : α) :
    mapGet ((k, v) :: m) k = some v := by
  simp [mapGet]

theorem write_write (o : Outs) (out : Nat) (a b : String) :
    (o.write out a).write out b = o.write out (a ++ b) := by
  funext i
  by_cases h : i = out <;> simp [Outs.write, h, String.append_assoc]

theorem Load_unloaded (w : World) (web : WebServer) (h : web.loaded = false) :
    Load w web = ⟨{ web with Templates := some (compileSource w web).set, loaded := true },
      (compileSource w web).err, true, (compileSource w web).reads⟩ := by
  unfold Load compileSource sourcePaths
  rw [h]
  cases hw : web.watch
  · cases he : web.embedFiles <;> simp [walkLoad]
  · simp

theorem renderLoaded_flags (w : World) (fuel : Nat) (web : WebServer) (o : Outs) (out : Nat)
    (template : String) (binding : Binding) (layout : List String) :
    (renderLoaded w fuel web o out template binding layout).1.loaded = web.loaded ∧
    (renderLoaded w fuel web o out template binding layout).1.reload = web.reload ∧
    (renderLoaded w fuel web o out template binding layout).1.Templates.map TemplateSet.tmpl
      = web.Templates.map TemplateSet.tmpl := by
  unfold renderLoaded
  split
  · simp [*]
  · split
    · simp [*]
    · split
      · split
        · simp [*]
        · simp [*, TemplateSet.Funcs]
      · simp [*]

theorem Render_needsLoad (w : World) (fuel : Nat) (web : WebServer) (o : Outs) (out : Nat)
    (template : String) (binding : Binding) (layout : List String)
    (h : web.loaded = false ∨ web.reload = true) :
    Render w fuel web o out template binding layout =
      match (compileSource w web).err with
      | some e =>
        ⟨{ web with Templates := some (compileSource w web).set, loaded := true }, o,
          some (Failure.error e), true, (compileSource w web).reads⟩
      | none =>
        ⟨(renderLoaded w fuel
            { web with Templates := some (compileSource w web).set, loaded := true, reload := false
                }
            o out template binding layout).1,
          (renderLoaded w fuel
            { web with Templates := some (compileSource w web).set, loaded := true, reload := false
                }
            o out template binding layout).2.1,
          (renderLoaded w fuel
            { web with Templates := some (compileSource w web).set, loaded := true, reload := false
                }
            o out template binding layout).2.2,
          true, (compileSource w web).reads⟩ := by
  have hc : (!web.loaded || web.reload) = true := by
    rcases h with h | h <;> simp [h]
  unfold Render
  rw [if_pos hc]
  have hL : Load w (if web.reload = true then { web with loaded := false } else web)
      = ⟨{ web with Templates := some (compileSource w web).set, loaded := true },
        (compileSource w web).err, true, (compileSource w web).reads⟩ := by
    by_cases hr : web.reload = true
    · rw [if_pos hr]
      exact Load_unloaded w { web with loaded := false } rfl
    · rw [if_neg hr]
      have hl : web.loaded = false := by
        rcases h with h | h
        · exact h
        · exact absurd h hr
      exact Load_unloaded w web hl
  simp only [hL]

theorem Render_noLoad (w : World) (fuel : Nat) (web : WebServer) (o : Outs) (out : Nat)
    (template : String) (binding : Binding) (layout : List String)
    (hl : web.loaded = true) (hr : web.reload = false) :
    Render w fuel web o out template binding layout =
      ⟨(renderLoaded w fuel web o out template binding layout).1,
        (renderLoaded w fuel web o out template binding layout).2.1,
        (renderLoaded w fuel web o out template binding layout).2.2, false, []⟩ := by
  simp [Render, hl, hr]

theorem associate_fields (t : TemplateSet) (n : String) (tree : Body) :
    (t.associate n tree).left = t.left ∧ (t.associate n tree).right = t.right ∧
    (t.associate n tree).funcs = t.funcs := by
  unfold TemplateSet.associate
  split
  · split <;> simp
  · simp

theorem foldAssociate_fields (ds : List (String × Body)) :
    ∀ t : TemplateSet,
      (ds.foldl (fun s d => s.associate d.1 d.2) t).left = t.left ∧
      (ds.foldl (fun s d => s.associate d.1 d.2) t).right = t.right ∧
      (ds.foldl (fun s d => s.associate d.1 d.2) t).funcs = t.funcs := by
  induction ds with
  | nil => intro t; simp
  | cons d ds ih =>
    intro t
    simp only [List.foldl_cons]
    obtain ⟨h1, h2, h3⟩ := ih (t.associate d.1 d.2)
    obtain ⟨g1, g2, g3⟩ := associate_fields t d.1 d.2
    exact ⟨h1.trans g1, h2.trans g2, h3.trans g3⟩

theorem loadHandler_fields (w : World) (dir ext : String) (t : TemplateSet) (p : String) :
    (loadHandler w dir ext t p).set.left = t.left ∧
    (loadHandler w dir ext t p).set.right = t.right ∧
    (loadHandler w dir ext t p).set.funcs = t.funcs := by
  unfold loadHandler
  split
  · split
    · simp
    · split
      · simp
      · simp only [TemplateSet.NewParse]
        cases hp : w.parse t.left t.right (t.funcs.map Prod.fst) _ with
        | error e => simp
        | ok pr =>
          simp only
          obtain ⟨h1, h2, h3⟩ := foldAssociate_fields pr.defined (t.associate _ pr.main)
          obtain ⟨g1, g2, g3⟩ := associate_fields t
            (TrimSuffix (ToSlash w.separator _) ext) pr.main
          exact ⟨h1.trans g1, h2.trans g2, h3.trans g3⟩
  · simp

theorem walkLoad_cons (w : World) (dir ext : String) (t : TemplateSet) (p : String)
    (ps : List String) :
    ((loadHandler w dir ext t p).err = none ∧
      (walkLoad w dir ext t (p :: ps)).set
        = (walkLoad w dir ext (loadHandler w dir ext t p).set ps).set ∧
      (walkLoad w dir ext t (p :: ps)).err
        = (walkLoad w dir ext (loadHandler w dir ext t p).set ps).err) ∨
    ((loadHandler w dir ext t p).err ≠ none ∧
      (walkLoad w dir ext t (p :: ps)).set = (loadHandler w dir ext t p).set ∧
      (walkLoad w dir ext t (p :: ps)).err = (loadHandler w dir ext t p).err) := by
  simp only [walkLoad]
  cases hh : loadHandler w dir ext t p with
  | mk t1 e r =>
    cases e with
    | none => left; simp
    | some e => right; simp

theorem Ctx.Get_Set (c : Ctx) (k v k1 : String) : (c.Set k v).Get k1 = c.Get k1 := rfl

theorem Ctx.Get_Status (c : Ctx) (n : Nat) (k1 : String) : (c.Status n).Get k1 = c.Get k1 := rfl

theorem setContentType_req (hw : Host) (c : Ctx) (fname : String) (data : Bytes) :
    (setContentType hw c fname data).req = c.req := by
  unfold setContentType
  dsimp only
  split_ifs <;> rfl

theorem setContentType_body (hw : Host) (c : Ctx) (fname : String) (data : Bytes) :
    (setContentType hw c fname data).resp.body = c.resp.body := by
  unfold setContentType
  dsimp only
  split_ifs <;> rfl

theorem setContentType_header (hw : Host) (c : Ctx) (fname : String) (data : Bytes)
    (k : String) (hk : k ≠ "Content-Type") :
    mapGet (setContentType hw c fname data).resp.headers k = mapGet c.resp.headers k := by
  have hne : ("Content-Type" == k) = false := by simpa using fun h => hk h.symm
  unfold setContentType
  dsimp only
  split_ifs <;> simp [Ctx.Set, mapGet_mapSet, hne]

theorem assetHandler_found (hw : Host) (sendFile : String → Ctx → Ctx × Option String)
    (web : WebServer) (fs : EmbedFS) (index : List String) (root : String) (c : Ctx)
    (data : Bytes) (hwatch : web.watch = false) (hfs : web.embedFiles = some fs)
    (hidx : index.contains (hw.pathJoin root c.req.param) = true)
    (hread : fs.readFile (hw.pathJoin root c.req.param) = some data) :
    assetHandler hw sendFile web index root c = sendAsset hw c c.req.param data := by
  simp only [assetHandler, hwatch, hfs, hidx, hread, Bool.not_true, Bool.false_eq_true,
    if_false]

theorem assetHandler_missing (hw : Host) (sendFile : String → Ctx → Ctx × Option String)
    (web : WebServer) (fs : EmbedFS) (index : List String) (root : String) (c : Ctx)
    (hwatch : web.watch = false) (hfs : web.embedFiles = some fs)
    (hmiss : index.contains (hw.pathJoin root c.req.param) = false ∨
      fs.readFile (hw.pathJoin root c.req.param) = none) :
    assetHandler hw sendFile web index root c = (c.SendStatus hw 404, none) := by
  rcases hmiss with h | h
  · simp only [assetHandler, hwatch, hfs, h, Bool.not_false, Bool.false_eq_true, if_false,
      if_true]
  · cases hi : index.contains (hw.pathJoin root c.req.param)
    · simp only [assetHandler, hwatch, hfs, hi, Bool.not_false, Bool.false_eq_true, if_false,
        if_true]
    · simp only [assetHandler, hwatch, hfs, hi, h, Bool.not_true, Bool.false_eq_true, if_false]

theorem SendStatus_status (hw : Host) (c : Ctx) (n : Nat) : (c.SendStatus hw n).resp.status = n :=
    by
  unfold Ctx.SendStatus
  simp only
  split <;> rfl

/-- When the handler has the bytes and neither check fires: status, headers and
body of the response. -/
theorem sendAsset_ok (hw : Host) (c : Ctx) (fname : String) (data : Bytes)
    (ht : notModifiedSince hw (c.Get "If-Modified-Since") = false)
    (hh : c.Get "If-None-Match" ≠ hw.md5hex data) :
    (sendAsset hw c fname data).2 = none ∧
    (sendAsset hw c fname data).1.resp.status = 200 ∧
    (sendAsset hw c fname data).1.resp.header "ETag" = hw.md5hex data ∧
    (sendAsset hw c fname data).1.resp.header "Last-Modified"
      = hw.formatTime hw.executableModTime ∧
    ((c.Get "Content-Encoding" = "" ∧ Contains (c.Get "Accept-Encoding") "gzip" = true ∧
        data ≠ []) →
      (sendAsset hw c fname data).1.resp.body = c.resp.body ++ hw.gzip data ∧
      (sendAsset hw c fname data).1.resp.header "Content-Encoding" = "gzip" ∧
      (sendAsset hw c fname data).1.resp.header "Content-Length" = "0") ∧
    (¬ (c.Get "Content-Encoding" = "" ∧ Contains (c.Get "Accept-Encoding") "gzip" = true) →
      (sendAsset hw c fname data).1.resp.body = c.resp.body ++ data ∧
      (sendAsset hw c fname data).1.resp.header "Content-Encoding" = c.resp.header
          "Content-Encoding" ∧
      (sendAsset hw c fname data).1.resp.header "Content-Length" = Nat.repr data.length) := by
  have hh1 : (c.Get "If-None-Match" == hw.md5hex data) = false := by simpa using hh
  have hE : mapGet (setContentType hw
      ((c.Set "ETag" (hw.md5hex data)).Set "Last-Modified" (hw.formatTime hw.executableModTime))
      fname data).resp.headers "ETag" = some (hw.md5hex data) := by
    rw [setContentType_header _ _ _ _ _ (by decide)]
    simp [Ctx.Set, mapGet_mapSet]
  have hM : mapGet (setContentType hw
      ((c.Set "ETag" (hw.md5hex data)).Set "Last-Modified" (hw.formatTime hw.executableModTime))
      fname data).resp.headers "Last-Modified" = some (hw.formatTime hw.executableModTime) := by
    rw [setContentType_header _ _ _ _ _ (by decide)]
    simp [Ctx.Set, mapGet_mapSet]
  have hC : mapGet (setContentType hw
      ((c.Set "ETag" (hw.md5hex data)).Set "Last-Modified" (hw.formatTime hw.executableModTime))
      fname data).resp.headers "Content-Encoding" = mapGet c.resp.headers "Content-Encoding" := by
    rw [setContentType_header _ _ _ _ _ (by decide)]
    simp [Ctx.Set, mapGet_mapSet]
  have hB : (setContentType hw
      ((c.Set "ETag" (hw.md5hex data)).Set "Last-Modified" (hw.formatTime hw.executableModTime))
      fname data).resp.body = c.resp.body := by
    rw [setContentType_body]
    rfl
  have hget : ∀ k, (setContentType hw
      ((c.Set "ETag" (hw.md5hex data)).Set "Last-Modified" (hw.formatTime hw.executableModTime))
      fname data).Get k = c.Get k := fun k => by
    simp only [Ctx.Get, setContentType_req]
    rfl
  unfold sendAsset
  simp only [ht, hh1, Bool.false_eq_true, if_false, Ctx.Get_Status, ioCopy, hget]
  generalize setContentType hw
      ((c.Set "ETag" (hw.md5hex data)).Set "Last-Modified" (hw.formatTime hw.executableModTime))
      fname data = c2 at hE hM hC hB ⊢
  have h0 : Nat.repr 0 = "0" := rfl
  by_cases hd : data = []
  · subst hd
    simp [Response.header, Ctx.Set, Ctx.Status, Ctx.WriteBody, mapGet_mapSet, hE, hM, hC, hB, h0]
  · have hlen : data.length > 0 := List.length_pos.mpr hd
    by_cases hg : c.Get "Content-Encoding" = "" ∧ Contains (c.Get "Accept-Encoding") "gzip" = true
    · simp [hlen, hg, hd, Response.header, Ctx.Set, Ctx.Status, Ctx.WriteBody, Ctx.SetBody,
        mapGet_mapSet, hE, hM, hC, hB, h0]
    · have hg1 : (c.Get "Content-Encoding" == "" && Contains (c.Get "Accept-Encoding") "gzip")
          = false := by
        simpa using hg
      simp [hlen, hg, hg1, hd, Response.header, Ctx.Set, Ctx.Status, Ctx.WriteBody, Ctx.SetBody,
        mapGet_mapSet, hE, hM, hC, hB]

theorem sendAsset_notModified (hw : Host) (c : Ctx) (fname : String) (data : Bytes)
    (h : notModifiedSince hw (c.Get "If-Modified-Since") = true ∨
      c.Get "If-None-Match" = hw.md5hex data) :
    sendAsset hw c fname data = (c.SendStatus hw 304, none) := by
  unfold sendAsset
  rcases h with h | h
  · simp only [h, if_true]
  · cases ht : notModifiedSince hw (c.Get "If-Modified-Since")
    · simp [h]
    · simp

theorem SendStatus_sentBody (hw : Host) (c : Ctx) : (c.SendStatus hw 304).resp.sentBody = [] := by
  simp [Response.sentBody, SendStatus_status, mustSkipBody]

theorem SendStatus_body (hw : Host) (c : Ctx) (n : Nat) (hb : c.resp.body = []) :
    (c.SendStatus hw n).resp.body = hw.statusMessage n := by
  simp [Ctx.SendStatus, Ctx.Status, Ctx.SetBody, hb]

theorem length_pos_of_ne_empty (s : String) (h : s ≠ "") : s.length > 0 := by
  cases s with
  | mk d =>
    cases d with
    | nil => exact absurd rfl h
    | cons a l => simp [String.length]

theorem notModifiedSince_empty (hw : Host) (c : Ctx)
    (hims : mapGet c.req.headers "If-Modified-Since" = none) (hparse : hw.parseTime "" = none) :
    notModifiedSince hw (c.Get "If-Modified-Since") = false := by
  simp [notModifiedSince, Ctx.Get, hims, hparse]

theorem execNodes_mono (w : World) (callee callee1 : Exec) (funcs : List (String × Func))
    (h : ∀ f t b out o, finished (callee f t b out o) = true →
      callee1 f t b out o = callee f t b out o) :
    ∀ (body : Body) (b : Binding) (out : Nat) (o : Outs),
      finished (execNodes w callee funcs body b out o) = true →
      execNodes w callee1 funcs body b out o = execNodes w callee funcs body b out o := by
  intro body
  induction body with
  | nil => intro b out o _; rfl
  | cons n rest ih =>
    intro b out o hf
    cases n with
    | text s => exact ih b out _ hf
    | action f =>
      simp only [execNodes] at hf ⊢
      cases hfb : f b with
      | error e => simp
      | ok s =>
        simp only [hfb] at hf ⊢
        exact ih b out _ hf
    | call fn =>
      simp only [execNodes] at hf ⊢
      cases hg : mapGet funcs fn with
      | none => simp
      | some fv =>
        cases fv with
        | layoutStub =>
          simp only [hg] at hf ⊢
          exact ih b out _ hf
        | marshal => simp
        | layoutBody out1 tmpl1 b1 =>
          simp only [hg] at hf ⊢
          cases hc : callee funcs tmpl1 b1 out1 o with
          | mk o1 e =>
            cases e with
            | none =>
              have hc1 := h funcs tmpl1 b1 out1 o (by rw [hc]; rfl)
              rw [hc1, hc]
              simp only [hc] at hf ⊢
              exact ih b out _ hf
            | some fl =>
              cases fl with
              | error msg =>
                have hc1 := h funcs tmpl1 b1 out1 o (by rw [hc]; rfl)
                rw [hc1, hc]
                simp only [hc] at hf ⊢
                exact ih b out _ hf
              | crash msg =>
                simp only [hc] at hf
                exact absurd hf (by simp [finished])

theorem execute_succ (w : World) :
    ∀ (fuel : Nat) (f : List (String × Func)) (t : Option Body) (b : Binding) (out : Nat)
      (o : Outs), finished (execute w fuel f t b out o) = true →
      execute w (fuel + 1) f t b out o = execute w fuel f t b out o := by
  intro fuel
  induction fuel with
  | zero =>
    intro f t b out o hf
    cases t with
    | none => rfl
    | some body =>
      exact execNodes_mono w _ _ f (fun _ _ _ _ _ hfin => absurd hfin (by simp [finished]))
        body b out o hf
  | succ n ih =>
    intro f t b out o hf
    cases t with
    | none => rfl
    | some body => exact execNodes_mono w _ _ f ih body b out o hf

theorem execute_add (w : World) (fuel k : Nat) (f : List (String × Func)) (t : Option Body)
    (b : Binding) (out : Nat) (o : Outs)
    (hf : finished (execute w fuel f t b out o) = true) :
    execute w (fuel + k) f t b out o = execute w fuel f t b out o := by
  induction k with
  | zero => rfl
  | succ k ih =>
    rw [← Nat.add_assoc, execute_succ w (fuel + k) f t b out o (by rw [ih]; exact hf), ih]

/-! ## Layout composition (C1) -/

/-- C1. Layout composition: in a loaded store with no reload pending, whose
set has a layout template made of the text "before|", a call of the layout
key and the text "|after", and a body template whose execution under the
function table of the render writes "X" to the stream and succeeds within
some bound `fuel` on nesting, `Render` of the body with that layout, under
every bound from `fuel + 1` on, returns no error and adds exactly
"before|X|after" to the stream, the other streams being untouched. -/
theorem Render_layout_composition (w : World) (fuel : Nat) (web : WebServer) (ts : TemplateSet)
    (o : Outs) (out : Nat) (template layout : String) (more : List String) (binding : Binding)
    (body : Option Body)
    (hloaded : web.loaded = true) (hreload : web.reload = false)
    (hset : web.Templates = some ts) (hname : layout ≠ "")
    (hlay : ts.Lookup layout
      = some (some [Node.text "before|", Node.call web.layout, Node.text "|after"]))
    (hbody : ts.Lookup template = some body)
    (hout : ∀ o1 : Outs,
      execute w fuel ((web.layout, Func.layoutBody out body binding) :: ts.funcs)
        body binding out o1 = (o1.write out "X", none)) (k : Nat) :
    (Render w (fuel + 1 + k) web o out template binding (layout :: more)).err = none ∧
    (Render w (fuel + 1 + k) web o out template binding (layout :: more)).outs
      = o.write out "before|X|after" := by
  have hexec : execute w (fuel + 1) ((web.layout, Func.layoutBody out body binding) :: ts.funcs)
      (some [Node.text "before|", Node.call web.layout, Node.text "|after"]) binding out o
      = (o.write out "before|X|after", none) := by
    simp only [execute, executeWith, execNodes, mapGet_cons_self]
    rw [hout]
    simp only [write_write]
    rfl
  have hmore := execute_add w (fuel + 1) k
    ((web.layout, Func.layoutBody out body binding) :: ts.funcs)
    (some [Node.text "before|", Node.call web.layout, Node.text "|after"]) binding out o
    (by rw [hexec]; rfl)
  rw [hexec] at hmore
  simp only [Render, hloaded, hreload, renderLoaded, hset, hbody, hlay, List.headD_cons,
    TemplateSet.Funcs, List.length_cons]
  simp [hname, hmore]

/-- C1 at a concrete store: the set compiled from `layoutWorld`. -/
theorem Render_layout_composition_witness :
    (Render layoutWorld 1 layoutServer noOutput 7 "body" "b"
        ["layout"]).err = none ∧
    (Render layoutWorld 1 layoutServer noOutput 7 "body" "b"
        ["layout"]).outs = noOutput.write 7 "before|X|after" :=
  Render_layout_composition layoutWorld 0 layoutServer
    (compileSource layoutWorld viewsServer).set noOutput 7 "body" "layout" [] "b"
    (some [Node.text "X"]) rfl rfl rfl (by decide) rfl rfl (fun _ => rfl) 0

/-! ## Reload through Render (C2) -/

/-- C2. Reload through `Render`: `Render` compiles a new set exactly when
`loaded` is false or `reload` is true; when it does not, it reads no source
file and the name space of the published set is unchanged; when it does and
the compilation of the current source succeeds, the store ends with
`loaded = true` and `reload = false`, the files read are those of that
compilation, and the outcome is that of the lookup and execution in the set
just compiled from the current source. -/
theorem Render_reload (w : World) (fuel : Nat) (web : WebServer) (o : Outs) (out : Nat)
    (template : String) (binding : Binding) (layout : List String) :
    ((Render w fuel web o out template binding layout).compiled = true
      ↔ (web.loaded = false ∨ web.reload = true)) ∧
    ((Render w fuel web o out template binding layout).compiled = false →
      (Render w fuel web o out template binding layout).reads = [] ∧
      (Render w fuel web o out template binding layout).web.Templates.map TemplateSet.tmpl
        = web.Templates.map TemplateSet.tmpl) ∧
    ((Render w fuel web o out template binding layout).compiled = true →
      (compileSource w web).err = none →
      (Render w fuel web o out template binding layout).web.loaded = true ∧
      (Render w fuel web o out template binding layout).web.reload = false ∧
      (Render w fuel web o out template binding layout).reads = (compileSource w web).reads ∧
      ((Render w fuel web o out template binding layout).web,
        (Render w fuel web o out template binding layout).outs,
        (Render w fuel web o out template binding layout).err)
        = renderLoaded w fuel
            { web with Templates := some (compileSource w web).set, loaded := true, reload := false
                }
            o out template binding layout) := by
  by_cases h : web.loaded = false ∨ web.reload = true
  · have hR := Render_needsLoad w fuel web o out template binding layout h
    have hf := renderLoaded_flags w fuel
      { web with Templates := some (compileSource w web).set, loaded := true, reload := false }
      o out template binding layout
    rw [hR]
    cases he : (compileSource w web).err with
    | none => exact ⟨⟨fun _ => h, fun _ => rfl⟩, fun hc => by simp at hc,
        fun _ _ => ⟨hf.1, hf.2.1, rfl, rfl⟩⟩
    | some e => exact ⟨⟨fun _ => h, fun _ => rfl⟩, fun hc => by simp at hc,
        fun _ hn => by simp at hn⟩
  · have hl : web.loaded = true := by
      cases hw : web.loaded
      · exact absurd (Or.inl hw) h
      · rfl
    have hr : web.reload = false := by
      cases hw : web.reload
      · rfl
      · exact absurd (Or.inr hw) h
    have hf := renderLoaded_flags w fuel web o out template binding layout
    rw [Render_noLoad w fuel web o out template binding layout hl hr]
    exact ⟨⟨fun hc => by simp at hc, fun hc => absurd hc h⟩, fun _ => ⟨rfl, hf.2.2⟩,
      fun hc => by simp at hc⟩

/-- C2 on an edit: the store `NewWebServer` returns over `worldA` renders `t`
without compiling and prints "A"; the file is edited (`worldB`) and the
watcher callback runs; the next `Render` compiles anew, reads the file and
prints "B".  Had the callback not run, the source would not be read and "A"
would be printed. -/
theorem Render_reload_witness :
    NewWebServer worldA "views" none true = some storeA ∧
    (Render worldA 0 storeA noOutput 1 "t" "" []).outs 1 = "A" ∧
    (Render worldA 0 storeA noOutput 1 "t" "" []).compiled = false ∧
    (onFileEvent worldB (Render worldA 0 storeA noOutput 1 "t" "" []).web
      "views/t.html").reload = true ∧
    (Render worldB 0
      (onFileEvent worldB (Render worldA 0 storeA noOutput 1 "t" "" []).web "views/t.html")
      noOutput 2 "t" "" []).compiled = true ∧
    (Render worldB 0
      (onFileEvent worldB (Render worldA 0 storeA noOutput 1 "t" "" []).web "views/t.html")
      noOutput 2 "t" "" []).reads = ["views/t.html"] ∧
    (Render worldB 0
      (onFileEvent worldB (Render worldA 0 storeA noOutput 1 "t" "" []).web "views/t.html")
      noOutput 2 "t" "" []).outs 2 = "B" ∧
    (Render worldB 0
      (onFileEvent worldB (Render worldA 0 storeA noOutput 1 "t" "" []).web "views/t.html")
      noOutput 2 "t" "" []).err = none ∧
    (Render worldB 0
      (onFileEvent worldB (Render worldA 0 storeA noOutput 1 "t" "" []).web "views/t.html")
      noOutput 2 "t" "" []).web.reload = false ∧
    (Render worldB 0 (Render worldA 0 storeA noOutput 1 "t" "" []).web
      noOutput 2 "t" "" []).outs 2 = "A" :=
  ⟨rfl, by decide, by decide, by decide,
    ((Render_reload worldB 0
      (onFileEvent worldB (Render worldA 0 storeA noOutput 1 "t" "" []).web "views/t.html")
      noOutput 2 "t" "" []).1).2 (Or.inr (by decide)),
    by decide, by decide, by decide, by decide, by decide⟩

/-! ## A failed load (C3) -/

/-- C3, the code at a failing input: the `Load` that `NewWebServer` runs over
`brokenWorld`, the first of the store, fails on `bad.html`, yet leaves
`loaded = true` in the store returned; the next `Render` compiles nothing
and reads nothing, serves `a` from the set the failed load left behind, and
reports `z`, which the walk never reached, as not existing. -/
theorem Load_failure_leaves_loaded :
    NewWebServer brokenWorld "views" none true = some (Load brokenWorld viewsServer).web ∧
    (Load brokenWorld viewsServer).err = some "function nope not defined" ∧
    (Load brokenWorld viewsServer).web.loaded = true ∧
    (Render brokenWorld 0 (Load brokenWorld viewsServer).web noOutput 1 "a" "" []).compiled
      = false ∧
    (Render brokenWorld 0 (Load brokenWorld viewsServer).web noOutput 1 "a" "" []).reads = [] ∧
    (Render brokenWorld 0 (Load brokenWorld viewsServer).web noOutput 1 "a" "" []).err = none ∧
    (Render brokenWorld 0 (Load brokenWorld viewsServer).web noOutput 1 "a" "" []).outs 1 = "A" ∧
    (Render brokenWorld 0 (Load brokenWorld viewsServer).web noOutput 1 "z" "" []).err
      = some (Failure.error "render: template z does not exist") := by
  refine ⟨rfl, ?_, ?_, ?_, ?_, ?_, ?_, ?_⟩ <;> decide

/-! ## The layout function after a layout render (C4) -/

/-- C4, the code at a failing input: the store is reached from the one
`NewWebServer` returns by one `Render` with a layout.  Afterwards the layout key is bound, in the
table of the published set, to the closure of that render.  Rendering the
layout template with no layout argument to stream 2 then returns no error,
prints nothing between the literals on stream 2, and runs the body of the
earlier render, which writes "X" once more to stream 1. -/
theorem layout_closure_outlives_render :
    NewWebServer layoutWorld "views" none true = some layoutServer ∧
    (Render layoutWorld 1 layoutServer noOutput 1 "body" "b" ["layout"]).err = none ∧
    (Render layoutWorld 1 layoutServer noOutput 1 "body" "b" ["layout"]).outs 1
      = "before|X|after" ∧
    afterLayoutRender.Templates.bind (fun ts => mapGet ts.funcs afterLayoutRender.layout)
      = some (Func.layoutBody 1 (some [Node.text "X"]) "b") ∧
    (Render layoutWorld 1 afterLayoutRender noOutput 2 "layout" "b" []).err = none ∧
    (Render layoutWorld 1 afterLayoutRender noOutput 2 "layout" "b" []).outs 2
      = "before||after" ∧
    (Render layoutWorld 1 afterLayoutRender noOutput 2 "layout" "b" []).outs 1 = "X" := by
  refine ⟨rfl, ?_, ?_, rfl, ?_, ?_, ?_⟩ <;> decide

/-- The stub of `NewWebServer` in a store that rendered no layout yet: the
layout template rendered on its own returns no error, and the message of the
stub is printed between the literals. -/
theorem layout_stub_is_printed :
    (Render layoutWorld 0 layoutServer noOutput 2 "layout" "b" []).err = none ∧
    (Render layoutWorld 0 layoutServer noOutput 2 "layout" "b" []).outs 2
      = "before|layout called unexpectedly|after" := by
  refine ⟨?_, ?_⟩ <;> decide

/-! ## Compression negotiation (C5) -/

/-- C5, the claim at a request that carries a `Content-Encoding` header of
its own: the script is served with status 200, `Accept-Encoding` contains
"gzip", and the response has no `Content-Encoding` and the raw bytes as
body, not the compressed ones. -/
theorem Static_compression_request_encoding :
    (assetHandler exampleHost noSendFile embedServer exampleFS.paths "web/static"
      (requestCtx (scriptRequest [("Accept-Encoding", "gzip"), ("Content-Encoding",
          "identity")]))).1.resp.status = 200 ∧
    Contains ((requestCtx (scriptRequest [("Accept-Encoding", "gzip"), ("Content-Encoding",
        "identity")])).Get "Accept-Encoding") "gzip" = true ∧
    (assetHandler exampleHost noSendFile embedServer exampleFS.paths "web/static"
      (requestCtx (scriptRequest [("Accept-Encoding", "gzip"), ("Content-Encoding",
          "identity")]))).1.resp.header "Content-Encoding" ≠ "gzip" ∧
    (assetHandler exampleHost noSendFile embedServer exampleFS.paths "web/static"
      (requestCtx (scriptRequest [("Accept-Encoding", "gzip"), ("Content-Encoding",
          "identity")]))).1.resp.body = [1, 2, 3] ∧
    exampleHost.gzip [1, 2, 3] ≠ [1, 2, 3] := by
  refine ⟨?_, ?_, ?_, ?_, ?_⟩ <;> decide

/-- C5, amended. Compression negotiation in the embedded mode, for a
non-empty asset served with status 200 from the response a route starts
from: when `Accept-Encoding` contains "gzip" and the request has no or an
empty `Content-Encoding` header, the response has `Content-Encoding: gzip` and its
body is the compression of the asset, which any inverse of the compressor
turns back into the asset; when the request has no `Accept-Encoding` header,
the body is the asset itself and `Content-Length` is its length. -/
theorem Static_compression (hw : Host) (sendFile : String → Ctx → Ctx × Option String)
    (web : WebServer) (fs : EmbedFS) (index : List String) (root : String) (req : Request)
    (data : Bytes) (hwatch : web.watch = false) (hfs : web.embedFiles = some fs)
    (hidx : index.contains (hw.pathJoin root req.param) = true)
    (hread : fs.readFile (hw.pathJoin root req.param) = some data)
    (hne : data ≠ [])
    (hstatus : (assetHandler hw sendFile web index root (requestCtx req)).1.resp.status = 200) :
    (Contains ((requestCtx req).Get "Accept-Encoding") "gzip" = true →
      (requestCtx req).Get "Content-Encoding" = "" →
      (assetHandler hw sendFile web index root (requestCtx req)).1.resp.header "Content-Encoding" =
          "gzip" ∧
      (assetHandler hw sendFile web index root (requestCtx req)).1.resp.body = hw.gzip data ∧
      ∀ gunzip : Bytes → Option Bytes, (∀ d, gunzip (hw.gzip d) = some d) →
        gunzip (assetHandler hw sendFile web index root (requestCtx req)).1.resp.body = some data) ∧
    (mapGet req.headers "Accept-Encoding" = none →
      (assetHandler hw sendFile web index root (requestCtx req)).1.resp.body = data ∧
      (assetHandler hw sendFile web index root (requestCtx req)).1.resp.header "Content-Length"
        = Nat.repr data.length) := by
  have hbody : (requestCtx req).resp.body = [] := rfl
  rw [assetHandler_found hw sendFile web fs index root (requestCtx req) data hwatch hfs hidx hread]
      at hstatus ⊢
  simp only [show (requestCtx req).req.param = req.param from rfl] at *
  have ht : notModifiedSince hw ((requestCtx req).Get "If-Modified-Since") = false := by
    cases h : notModifiedSince hw ((requestCtx req).Get "If-Modified-Since")
    · rfl
    · rw [sendAsset_notModified hw (requestCtx req) _ data (Or.inl h), SendStatus_status] at hstatus
      exact absurd hstatus (by decide)
  have hm : (requestCtx req).Get "If-None-Match" ≠ hw.md5hex data := by
    intro h
    rw [sendAsset_notModified hw (requestCtx req) _ data (Or.inr h), SendStatus_status] at hstatus
    exact absurd hstatus (by decide)
  obtain ⟨_, _, _, _, h5, h6⟩ := sendAsset_ok hw (requestCtx req) req.param data ht hm
  constructor
  · intro hg hce1
    obtain ⟨hb, he, _⟩ := h5 ⟨hce1, hg, hne⟩
    rw [hbody, List.nil_append] at hb
    refine ⟨he, hb, ?_⟩
    intro gunzip hinv
    rw [hb]
    exact hinv data
  · intro hae
    have hg : Contains ((requestCtx req).Get "Accept-Encoding") "gzip" = false := by
      have hget : (requestCtx req).Get "Accept-Encoding" = "" := by
        simp only [Ctx.Get, show (requestCtx req).req.headers = req.headers from rfl, hae]
        rfl
      rw [hget]
      decide
    obtain ⟨hb, _, hl⟩ := h6 (by simp [hg])
    rw [hbody, List.nil_append] at hb
    exact ⟨hb, hl⟩

/-- C5 amended, at `exampleFS`: the script asked for with and without
`Accept-Encoding: gzip`. -/
theorem Static_compression_witness :
    (assetHandler exampleHost noSendFile embedServer exampleFS.paths "web/static"
      (requestCtx (scriptRequest [("Accept-Encoding", "deflate, gzip")]))).1.resp.body
        = [31, 139, 1, 2, 3] ∧
    (assetHandler exampleHost noSendFile embedServer exampleFS.paths "web/static"
      (requestCtx (scriptRequest [("Accept-Encoding", "deflate, gzip")]))).1.resp.header
        "Content-Encoding" = "gzip" ∧
    (assetHandler exampleHost noSendFile embedServer exampleFS.paths "web/static"
      (requestCtx (scriptRequest []))).1.resp.body = [1, 2, 3] ∧
    (assetHandler exampleHost noSendFile embedServer exampleFS.paths "web/static"
      (requestCtx (scriptRequest []))).1.resp.header "Content-Length" = "3" :=
  have h := Static_compression exampleHost noSendFile embedServer exampleFS exampleFS.paths
    "web/static" (scriptRequest [("Accept-Encoding", "deflate, gzip")]) [1, 2, 3]
    rfl rfl (by decide) (by decide) (by decide) (by decide)
  have h1 := Static_compression exampleHost noSendFile embedServer exampleFS exampleFS.paths
    "web/static" (scriptRequest []) [1, 2, 3]
    rfl rfl (by decide) (by decide) (by decide) (by decide)
  ⟨(h.1 (by decide) (by decide)).2.1, (h.1 (by decide) (by decide)).1,
    (h1.2 (by decide)).1, (h1.2 (by decide)).2⟩

/-- The `Content-Length` the handler sets on the compressed branch: the
length of the buffer is read after `io.Copy` has drained it, so the header is
"0" whatever the compressed size. -/
theorem Static_compressed_length_header (hw : Host)
    (sendFile : String → Ctx → Ctx × Option String)
    (web : WebServer) (fs : EmbedFS) (index : List String) (root : String) (c : Ctx)
    (data : Bytes) (hwatch : web.watch = false) (hfs : web.embedFiles = some fs)
    (hidx : index.contains (hw.pathJoin root c.req.param) = true)
    (hread : fs.readFile (hw.pathJoin root c.req.param) = some data)
    (hne : data ≠ [])
    (ht : notModifiedSince hw (c.Get "If-Modified-Since") = false)
    (hm : c.Get "If-None-Match" ≠ hw.md5hex data)
    (hg : Contains (c.Get "Accept-Encoding") "gzip" = true)
    (hce : c.Get "Content-Encoding" = "") :
    (assetHandler hw sendFile web index root c).1.resp.header "Content-Length" = "0" := by
  rw [assetHandler_found hw sendFile web fs index root c data hwatch hfs hidx hread]
  exact ((sendAsset_ok hw c c.req.param data ht hm).2.2.2.2.1 ⟨hce, hg, hne⟩).2.2

/-! ## Fingerprint caching (C6) -/

theorem embedServer_is_new :
    NewWebServer worldA "web" (some exampleFS) false = some embedServer := rfl

/-- C6. Fingerprint-based caching in the embedded mode: for an asset that is
in the index and readable, a request without `If-Modified-Since` (the empty
string being no HTTP date), served from the response a route starts from: when
`If-None-Match` equals the digest the handler answers 304, writes none of the
asset (the body buffer holds fiber's status text only) and no body is
transmitted; otherwise it answers 200 with `ETag` the digest, `Last-Modified`
the formatted build time, and, when `Accept-Encoding` has no "gzip", the
asset bytes as body. -/
theorem Static_fingerprint_cache (hw : Host) (sendFile : String → Ctx → Ctx × Option String)
    (web : WebServer) (fs : EmbedFS) (index : List String) (root : String) (req : Request)
    (data : Bytes) (hwatch : web.watch = false) (hfs : web.embedFiles = some fs)
    (hidx : index.contains (hw.pathJoin root req.param) = true)
    (hread : fs.readFile (hw.pathJoin root req.param) = some data)
    (hims : mapGet req.headers "If-Modified-Since" = none)
    (hparse : hw.parseTime "" = none) :
    ((requestCtx req).Get "If-None-Match" = hw.md5hex data →
      (assetHandler hw sendFile web index root (requestCtx req)).2 = none ∧
      (assetHandler hw sendFile web index root (requestCtx req)).1.resp.status = 304 ∧
      (assetHandler hw sendFile web index root (requestCtx req)).1.resp.sentBody = [] ∧
      (assetHandler hw sendFile web index root (requestCtx req)).1.resp.body = hw.statusMessage
          304) ∧
    ((requestCtx req).Get "If-None-Match" ≠ hw.md5hex data →
      (assetHandler hw sendFile web index root (requestCtx req)).2 = none ∧
      (assetHandler hw sendFile web index root (requestCtx req)).1.resp.status = 200 ∧
      (assetHandler hw sendFile web index root (requestCtx req)).1.resp.header "ETag" = hw.md5hex
          data ∧
      (assetHandler hw sendFile web index root (requestCtx req)).1.resp.header "Last-Modified"
        = hw.formatTime hw.executableModTime ∧
      (Contains ((requestCtx req).Get "Accept-Encoding") "gzip" = false →
        (assetHandler hw sendFile web index root (requestCtx req)).1.resp.body = data ∧
        (assetHandler hw sendFile web index root (requestCtx req)).1.resp.sentBody = data)) := by
  have hbody : (requestCtx req).resp.body = [] := rfl
  rw [assetHandler_found hw sendFile web fs index root (requestCtx req) data hwatch hfs hidx hread]
  simp only [show (requestCtx req).req.param = req.param from rfl] at *
  have ht := notModifiedSince_empty hw (requestCtx req) hims hparse
  constructor
  · intro hm
    rw [sendAsset_notModified hw (requestCtx req) _ data (Or.inr hm)]
    exact ⟨rfl, SendStatus_status hw (requestCtx req) 304, SendStatus_sentBody hw (requestCtx req),
        SendStatus_body hw (requestCtx req) 304 hbody⟩
  · intro hm
    obtain ⟨h1, h2, h3, h4, _, h6⟩ := sendAsset_ok hw (requestCtx req) req.param data ht hm
    refine ⟨h1, h2, h3, h4, ?_⟩
    intro hg
    have hb := (h6 (by simp [hg])).1
    rw [hbody, List.nil_append] at hb
    refine ⟨hb, ?_⟩
    simp [Response.sentBody, h2, mustSkipBody, hb]

/-- C6 at `exampleFS`: the script asked for with its digest and with a stale
one. -/
theorem Static_fingerprint_cache_witness :
    (assetHandler exampleHost noSendFile embedServer exampleFS.paths "web/static"
      (requestCtx (scriptRequest [("If-None-Match", "digest-3")]))).1.resp.status = 304 ∧
    (assetHandler exampleHost noSendFile embedServer exampleFS.paths "web/static"
      (requestCtx (scriptRequest [("If-None-Match", "digest-3")]))).1.resp.sentBody = [] ∧
    (assetHandler exampleHost noSendFile embedServer exampleFS.paths "web/static"
      (requestCtx (scriptRequest [("If-None-Match", "digest-2")]))).1.resp.status = 200 ∧
    (assetHandler exampleHost noSendFile embedServer exampleFS.paths "web/static"
      (requestCtx (scriptRequest [("If-None-Match", "digest-2")]))).1.resp.header "ETag"
        = "digest-3" ∧
    (assetHandler exampleHost noSendFile embedServer exampleFS.paths "web/static"
      (requestCtx (scriptRequest [("If-None-Match", "digest-2")]))).1.resp.body = [1, 2, 3] :=
  have h := Static_fingerprint_cache exampleHost noSendFile embedServer exampleFS
    exampleFS.paths "web/static" (scriptRequest [("If-None-Match", "digest-3")])
    [1, 2, 3] rfl rfl (by decide) (by decide) (by decide) (by decide)
  have h1 := Static_fingerprint_cache exampleHost noSendFile embedServer exampleFS
    exampleFS.paths "web/static" (scriptRequest [("If-None-Match", "digest-2")])
    [1, 2, 3] rfl rfl (by decide) (by decide) (by decide) (by decide)
  ⟨(h.1 (by decide)).2.1, (h.1 (by decide)).2.2.1, (h1.2 (by decide)).2.1,
    (h1.2 (by decide)).2.2.1, ((h1.2 (by decide)).2.2.2.2 (by decide)).1⟩

/-! ## The fallback at the root mount (C7) -/

/-- C7, the claim at the empty suffix: with `Static("/", "logo.svg")` the
root of the mount is itself an asset, in the index and readable, and the
empty suffix resolves to it; the handler does not return it but passes on to
the next handler, with the response as it found it. -/
theorem rootHandler_empty_suffix :
    exampleHost.pathJoin (exampleHost.pathJoin "web" "logo.svg") "" = "web/logo.svg" ∧
    (exampleFS.paths.map (ToSlash exampleHost.separator)).contains "web/logo.svg" = true ∧
    exampleFS.readFile "web/logo.svg" = some [60, 112, 62] ∧
    (pageRoute.map (fun r => (serve r ⟨"", []⟩).passedOn)) = some true ∧
    (pageRoute.map (fun r => (serve r ⟨"", []⟩).ctx.resp.body)) = some [] ∧
    (pageRoute.map (fun r => (serve r ⟨"", []⟩).ctx.resp.headers)) = some [] := by
  refine ⟨?_, ?_, ?_, ?_, ?_, ?_⟩ <;> decide

/-- C7, amended. At the root mount `Static` registers `rootHandler` of the
asset handler first.  In the embedded mode, for every non-empty suffix: when
the joined path is not in the index or cannot be read, the handler returns no
error, leaves status 200, an empty body and an empty `Content-Type`, and
passes on to the next handler; when it is in the index and readable, the
handler returns the context and the error of the asset handler as they are
and does not pass on. -/
theorem rootHandler_fallback (hw : Host) (sendFile : String → Ctx → Ctx × Option String)
    (web : WebServer) (fs : EmbedFS) (folder : String) (m : List Handler) (c : Ctx)
    (hwatch : web.watch = false) (hfs : web.embedFiles = some fs) (hparam : c.req.param ≠ "") :
    Static hw sendFile web "/" folder m
      = some ⟨"/*", rootHandler (assetHandler hw sendFile web
          (fs.paths.map (ToSlash hw.separator)) (hw.pathJoin web.directory folder)) :: m⟩ ∧
    (((fs.paths.map (ToSlash hw.separator)).contains
          (hw.pathJoin (hw.pathJoin web.directory folder) c.req.param) = false ∨
        fs.readFile (hw.pathJoin (hw.pathJoin web.directory folder) c.req.param) = none) →
      (rootHandler (assetHandler hw sendFile web (fs.paths.map (ToSlash hw.separator))
        (hw.pathJoin web.directory folder)) c).next = true ∧
      (rootHandler (assetHandler hw sendFile web (fs.paths.map (ToSlash hw.separator))
        (hw.pathJoin web.directory folder)) c).err = none ∧
      (rootHandler (assetHandler hw sendFile web (fs.paths.map (ToSlash hw.separator))
        (hw.pathJoin web.directory folder)) c).ctx.resp.status = 200 ∧
      (rootHandler (assetHandler hw sendFile web (fs.paths.map (ToSlash hw.separator))
        (hw.pathJoin web.directory folder)) c).ctx.resp.body = [] ∧
      (rootHandler (assetHandler hw sendFile web (fs.paths.map (ToSlash hw.separator))
        (hw.pathJoin web.directory folder)) c).ctx.resp.header "Content-Type" = "") ∧
    (∀ data, (fs.paths.map (ToSlash hw.separator)).contains
          (hw.pathJoin (hw.pathJoin web.directory folder) c.req.param) = true →
      fs.readFile (hw.pathJoin (hw.pathJoin web.directory folder) c.req.param) = some data →
      (rootHandler (assetHandler hw sendFile web (fs.paths.map (ToSlash hw.separator))
        (hw.pathJoin web.directory folder)) c).next = false ∧
      (rootHandler (assetHandler hw sendFile web (fs.paths.map (ToSlash hw.separator))
        (hw.pathJoin web.directory folder)) c).ctx
        = (assetHandler hw sendFile web (fs.paths.map (ToSlash hw.separator))
          (hw.pathJoin web.directory folder) c).1 ∧
      (rootHandler (assetHandler hw sendFile web (fs.paths.map (ToSlash hw.separator))
        (hw.pathJoin web.directory folder)) c).err
        = (assetHandler hw sendFile web (fs.paths.map (ToSlash hw.separator))
          (hw.pathJoin web.directory folder) c).2 ∧
      ((assetHandler hw sendFile web (fs.paths.map (ToSlash hw.separator))
          (hw.pathJoin web.directory folder) c).1.resp.status = 200 ∨
        (assetHandler hw sendFile web (fs.paths.map (ToSlash hw.separator))
          (hw.pathJoin web.directory folder) c).1.resp.status = 304)) := by
  have hlen : c.req.param.length > 0 := length_pos_of_ne_empty _ hparam
  refine ⟨?_, ?_, ?_⟩
  · simp [Static, hfs]
  · intro hmiss
    have h := assetHandler_missing hw sendFile web fs (fs.paths.map (ToSlash hw.separator))
      (hw.pathJoin web.directory folder) c hwatch hfs hmiss
    have hs := SendStatus_status hw c 404
    simp only [rootHandler, hlen, if_true, h, hs]
    simp [Ctx.Set, Ctx.Status, Ctx.SetBody, Response.header, mapGet_mapSet]
  · intro data hidx hread
    have h := assetHandler_found hw sendFile web fs (fs.paths.map (ToSlash hw.separator))
      (hw.pathJoin web.directory folder) c data hwatch hfs hidx hread
    have hcases : sendAsset hw c c.req.param data = (c.SendStatus hw 304, none) ∨
        ((sendAsset hw c c.req.param data).2 = none ∧
          (sendAsset hw c c.req.param data).1.resp.status = 200) := by
      by_cases ht : notModifiedSince hw (c.Get "If-Modified-Since") = true
      · exact Or.inl (sendAsset_notModified hw c _ data (Or.inl ht))
      · by_cases hm : c.Get "If-None-Match" = hw.md5hex data
        · exact Or.inl (sendAsset_notModified hw c _ data (Or.inr hm))
        · have ht1 : notModifiedSince hw (c.Get "If-Modified-Since") = false := by
            simpa using ht
          have hok := sendAsset_ok hw c c.req.param data ht1 hm
          exact Or.inr ⟨hok.1, hok.2.1⟩
    simp only [rootHandler, hlen, if_true]
    rw [h]
    rcases hcases with h304 | ⟨he, h200⟩
    · have hs := SendStatus_status hw c 304
      rw [h304]
      simp [hs]
    · have hpair : sendAsset hw c c.req.param data
          = ((sendAsset hw c c.req.param data).1, none) := by
        rw [← he]
      rw [hpair]
      simp [h200]

/-- C7 amended, at `exampleFS` mounted at the root: an unknown suffix and the
script. -/
theorem rootHandler_fallback_witness :
    (rootHandler (assetHandler exampleHost noSendFile embedServer
        (exampleFS.paths.map (ToSlash exampleHost.separator))
        (exampleHost.pathJoin embedServer.directory "static"))
      (requestCtx ⟨"nothing.js", []⟩)).next = true ∧
    (rootHandler (assetHandler exampleHost noSendFile embedServer
        (exampleFS.paths.map (ToSlash exampleHost.separator))
        (exampleHost.pathJoin embedServer.directory "static"))
      (requestCtx ⟨"nothing.js", []⟩)).ctx.resp.body = [] ∧
    (rootHandler (assetHandler exampleHost noSendFile embedServer
        (exampleFS.paths.map (ToSlash exampleHost.separator))
        (exampleHost.pathJoin embedServer.directory "static"))
      (requestCtx ⟨"app.js", []⟩)).next = false ∧
    (rootHandler (assetHandler exampleHost noSendFile embedServer
        (exampleFS.paths.map (ToSlash exampleHost.separator))
        (exampleHost.pathJoin embedServer.directory "static"))
      (requestCtx ⟨"app.js", []⟩)).ctx.resp.body = [1, 2, 3] :=
  have h := rootHandler_fallback exampleHost noSendFile embedServer exampleFS "static" []
    (requestCtx ⟨"nothing.js", []⟩) rfl rfl (by decide)
  have h1 := rootHandler_fallback exampleHost noSendFile embedServer exampleFS "static" []
    (requestCtx ⟨"app.js", []⟩) rfl rfl (by decide)
  ⟨(h.2.1 (Or.inl (by decide))).1, (h.2.1 (Or.inl (by decide))).2.2.2.1,
    (h1.2.2 [1, 2, 3] (by decide) (by decide)).1, by decide⟩

/-! ## The additional handlers (C8) -/

theorem runChain_positions :
    ∀ (m : List Handler) (i : Nat) (c : Ctx),
      ∃ k, k ≤ m.length ∧ (runChain m i c).invoked = List.range' i k := by
  intro m
  induction m with
  | nil => intro i c; exact ⟨0, Nat.le_refl _, rfl⟩
  | cons h rest ih =>
    intro i c
    by_cases hn : (h c).next = true
    · obtain ⟨k, hk, hinv⟩ := ih (i + 1) (h c).ctx
      refine ⟨k + 1, Nat.succ_le_succ hk, ?_⟩
      simp only [runChain, hn, if_true, hinv]
      rfl
    · refine ⟨1, Nat.succ_le_succ (Nat.zero_le _), ?_⟩
      simp only [runChain, hn, if_false]
      rfl

theorem rootHandler_of_empty (h : Ctx → Ctx × Option String) (c : Ctx)
    (hp : c.req.param = "") : rootHandler h c = ⟨c, none, true⟩ := by
  simp [rootHandler, hp]

theorem rootHandler_of_miss (hw : Host) (sendFile : String → Ctx → Ctx × Option String)
    (web : WebServer) (fs : EmbedFS) (index : List String) (root : String) (c : Ctx)
    (hwatch : web.watch = false) (hfs : web.embedFiles = some fs) (hp : c.req.param ≠ "")
    (hmiss : index.contains (hw.pathJoin root c.req.param) = false ∨
      fs.readFile (hw.pathJoin root c.req.param) = none) :
    rootHandler (assetHandler hw sendFile web index root) c
      = ⟨(((c.SendStatus hw 404).Set "Content-Type" "").Status 200).SetBody [], none, true⟩ := by
  have hlen : c.req.param.length > 0 := length_pos_of_ne_empty _ hp
  have h := assetHandler_missing hw sendFile web fs index root c hwatch hfs hmiss
  have hs := SendStatus_status hw c 404
  simp only [rootHandler, hlen, if_true, h, hs]
  simp

theorem rootHandler_of_hit (hw : Host) (sendFile : String → Ctx → Ctx × Option String)
    (web : WebServer) (fs : EmbedFS) (index : List String) (root : String) (c : Ctx)
    (data : Bytes) (hwatch : web.watch = false) (hfs : web.embedFiles = some fs)
    (hp : c.req.param ≠ "")
    (hidx : index.contains (hw.pathJoin root c.req.param) = true)
    (hread : fs.readFile (hw.pathJoin root c.req.param) = some data) :
    rootHandler (assetHandler hw sendFile web index root) c
      = ⟨(assetHandler hw sendFile web index root c).1, none, false⟩ := by
  have hlen : c.req.param.length > 0 := length_pos_of_ne_empty _ hp
  have h := assetHandler_found hw sendFile web fs index root c data hwatch hfs hidx hread
  have hcases : sendAsset hw c c.req.param data = (c.SendStatus hw 304, none) ∨
      ((sendAsset hw c c.req.param data).2 = none ∧
        (sendAsset hw c c.req.param data).1.resp.status = 200) := by
    by_cases ht : notModifiedSince hw (c.Get "If-Modified-Since") = true
    · exact Or.inl (sendAsset_notModified hw c _ data (Or.inl ht))
    · by_cases hm : c.Get "If-None-Match" = hw.md5hex data
      · exact Or.inl (sendAsset_notModified hw c _ data (Or.inr hm))
      · have ht1 : notModifiedSince hw (c.Get "If-Modified-Since") = false := by
          simpa using ht
        have hok := sendAsset_ok hw c c.req.param data ht1 hm
        exact Or.inr ⟨hok.1, hok.2.1⟩
  simp only [rootHandler, hlen, if_true]
  rw [h]
  rcases hcases with h304 | ⟨he, h200⟩
  · have hs := SendStatus_status hw c 304
    rw [h304]
    simp [hs]
  · have hpair : sendAsset hw c c.req.param data
        = ((sendAsset hw c c.req.param data).1, none) := by
      rw [← he]
    rw [hpair]
    simp [h200]

/-- C8, the claim at the root mount with one additional handler and a request
for the script: the chain runs its first handler only, which answers 200 with
the asset; the additional handler, at position 1, is not invoked and has left
no mark. -/
theorem Static_additional_handler_not_first :
    (markedRoute.map (fun r => (serve r ⟨"app.js", []⟩).invoked)) = some [0] ∧
    (markedRoute.map (fun r => (serve r ⟨"app.js", []⟩).ctx.resp.status)) = some 200 ∧
    (markedRoute.map (fun r => (serve r ⟨"app.js", []⟩).ctx.resp.body)) = some [1, 2, 3] ∧
    (markedRoute.map (fun r => (serve r ⟨"app.js", []⟩).ctx.resp.header "X-Seen")) = some "" := by
  refine ⟨?_, ?_, ?_, ?_⟩ <;> decide

/-- C8, amended. At the root mount, in the embedded mode, `Static` registers
the fallback wrapper of the asset handler first and the additional handlers
`m` after it, in their order, and for every request: the wrapper is invoked
first; when the suffix is not empty and its joined path is in the index and
readable, the wrapper answers with the context of the asset handler and no
handler of `m` is invoked; otherwise (empty suffix, path not in the index, or
not readable) the wrapper passes on with status 200 and an empty body, and
the outcome of the chain is that of `m` run from position 1 on that context.
A run of `m` invokes consecutive positions, each handler after the one before
has passed on. -/
theorem Static_root_chain (hw : Host) (sendFile : String → Ctx → Ctx × Option String)
    (web : WebServer) (fs : EmbedFS) (folder : String) (m : List Handler) (req : Request)
    (hwatch : web.watch = false) (hfs : web.embedFiles = some fs) :
    ∃ route, Static hw sendFile web "/" folder m = some route ∧
      route.handlers = rootHandler (assetHandler hw sendFile web
        (fs.paths.map (ToSlash hw.separator)) (hw.pathJoin web.directory folder)) :: m ∧
      (∀ data, req.param ≠ "" →
        (fs.paths.map (ToSlash hw.separator)).contains
          (hw.pathJoin (hw.pathJoin web.directory folder) req.param) = true →
        fs.readFile (hw.pathJoin (hw.pathJoin web.directory folder) req.param) = some data →
        (serve route req).invoked = [0] ∧ (serve route req).passedOn = false ∧
        (serve route req).err = none ∧
        (serve route req).ctx = (assetHandler hw sendFile web
          (fs.paths.map (ToSlash hw.separator)) (hw.pathJoin web.directory folder)
          (requestCtx req)).1) ∧
      ((req.param = "" ∨
          (fs.paths.map (ToSlash hw.separator)).contains
            (hw.pathJoin (hw.pathJoin web.directory folder) req.param) = false ∨
          fs.readFile (hw.pathJoin (hw.pathJoin web.directory folder) req.param) = none) →
        ∃ c1 : Ctx, c1.req = req ∧ c1.resp.status = 200 ∧ c1.resp.body = [] ∧
          (serve route req).invoked = 0 :: (runChain m 1 c1).invoked ∧
          (serve route req).ctx = (runChain m 1 c1).ctx ∧
          (serve route req).err = (runChain m 1 c1).err ∧
          (serve route req).passedOn = (runChain m 1 c1).passedOn) ∧
      (∀ (i : Nat) (c : Ctx), ∃ k, k ≤ m.length ∧ (runChain m i c).invoked = List.range' i k) := by
  refine ⟨⟨"/*", rootHandler (assetHandler hw sendFile web
      (fs.paths.map (ToSlash hw.separator)) (hw.pathJoin web.directory folder)) :: m⟩,
    by simp [Static, hfs], rfl, ?_, ?_, runChain_positions m⟩
  · intro data hp hidx hread
    have hr := rootHandler_of_hit hw sendFile web fs (fs.paths.map (ToSlash hw.separator))
      (hw.pathJoin web.directory folder) (requestCtx req) data hwatch hfs hp hidx hread
    simp only [serve, runChain, hr]
    simp
  · intro hcase
    by_cases hp : req.param = ""
    · have hr := rootHandler_of_empty (assetHandler hw sendFile web
        (fs.paths.map (ToSlash hw.separator)) (hw.pathJoin web.directory folder))
        (requestCtx req) hp
      refine ⟨requestCtx req, rfl, rfl, rfl, ?_⟩
      simp only [serve, runChain, hr]
      simp
    · have hmiss : (fs.paths.map (ToSlash hw.separator)).contains
            (hw.pathJoin (hw.pathJoin web.directory folder) req.param) = false ∨
          fs.readFile (hw.pathJoin (hw.pathJoin web.directory folder) req.param) = none := by
        rcases hcase with h | h
        · exact absurd h hp
        · exact h
      have hr := rootHandler_of_miss hw sendFile web fs (fs.paths.map (ToSlash hw.separator))
        (hw.pathJoin web.directory folder) (requestCtx req) hwatch hfs hp hmiss
      refine ⟨((((requestCtx req).SendStatus hw 404).Set "Content-Type" "").Status 200).SetBody [],
        ?_, rfl, rfl, ?_⟩
      · simp only [Ctx.SetBody, Ctx.Status, Ctx.Set, Ctx.SendStatus]
        split <;> rfl
      · simp only [serve, runChain, hr]
        simp

/-- C8 amended, at `exampleFS` mounted at the root with one additional
handler: an unknown suffix and the empty suffix let it run, after the first
handler, and it leaves its mark; the script does not. -/
theorem Static_root_chain_witness :
    (markedRoute.map (fun r => (serve r ⟨"nothing.js", []⟩).invoked)) = some [0, 1] ∧
    (markedRoute.map (fun r => (serve r ⟨"nothing.js", []⟩).ctx.resp.header "X-Seen"))
      = some "1" ∧
    (markedRoute.map (fun r => (serve r ⟨"", []⟩).invoked)) = some [0, 1] ∧
    (markedRoute.map (fun r => (serve r ⟨"app.js", []⟩).invoked)) = some [0] ∧
    ∃ route, Static exampleHost noSendFile embedServer "/" "static" [markHandler] = some route ∧
      (serve route ⟨"app.js", []⟩).invoked = [0] ∧
      ∃ c1 : Ctx, (serve route ⟨"nothing.js", []⟩).invoked
        = 0 :: (runChain [markHandler] 1 c1).invoked :=
  ⟨by decide, by decide, by decide, by decide,
    (Static_root_chain exampleHost noSendFile embedServer exampleFS "static" [markHandler]
      ⟨"app.js", []⟩ rfl rfl).elim fun route h =>
      (Static_root_chain exampleHost noSendFile embedServer exampleFS "static" [markHandler]
        ⟨"nothing.js", []⟩ rfl rfl).elim fun route1 h1 =>
        ⟨route, h.1, (h.2.2.1 [1, 2, 3] (by decide) (by decide) (by decide)).1,
          (h1.2.2.2.1 (Or.inr (Or.inl (by decide)))).elim fun c1 hc =>
            ⟨c1, by
              have e : route = route1 := Option.some.inj (h.1.symm.trans h1.1)
              rw [e]
              exact hc.2.2.2.1⟩⟩⟩

/-- Away from the root mount the first handler never passes on: whatever the
additional handlers, none of them is invoked. -/
theorem Static_elsewhere_never_passes_on (hw : Host)
    (sendFile : String → Ctx → Ctx × Option String) (web : WebServer) (pfx folder : String)
    (m : List Handler) (route : Route) (req : Request) (hp : pfx ≠ "/")
    (hr : Static hw sendFile web pfx folder m = some route) :
    (serve route req).invoked = [0] := by
  unfold Static at hr
  cases hfs : web.embedFiles with
  | none => simp [hfs] at hr
  | some fs =>
    simp only [hfs] at hr
    have hp1 : (pfx == "/") = false := by simpa using hp
    simp only [hp1, Bool.false_eq_true, if_false, Option.some.injEq] at hr
    subst hr
    simp [serve, runChain, asHandler]

/-! ## Template name derivation (C9) -/

theorem walkLoad_fields (w : World) (dir ext : String) :
    ∀ (ps : List String) (t : TemplateSet),
      (walkLoad w dir ext t ps).set.left = t.left ∧
      (walkLoad w dir ext t ps).set.right = t.right ∧
      (walkLoad w dir ext t ps).set.funcs = t.funcs := by
  intro ps
  induction ps with
  | nil => intro t; simp [walkLoad]
  | cons q ps ih =>
    intro t
    obtain ⟨f1, f2, f3⟩ := loadHandler_fields w dir ext t q
    rcases walkLoad_cons w dir ext t q ps with ⟨_, h2, _⟩ | ⟨_, h2, _⟩
    · rw [h2]
      obtain ⟨g1, g2, g3⟩ := ih (loadHandler w dir ext t q).set
      exact ⟨g1.trans f1, g2.trans f2, g3.trans f3⟩
    · rw [h2]
      exact ⟨f1, f2, f3⟩

/-- C10, the claim at the boundary: the header parses to the instant `0` and
the build time is exactly one second later, so it is not after `t + 1s`; the
handler answers 200 with the asset, not 304. -/
theorem Static_modified_since_boundary :
    exampleHost.parseTime ((requestCtx (scriptRequest [("If-Modified-Since",
        "Thu, 01 Jan 1970 00:00:00 GMT")])).Get "If-Modified-Since") = some 0 ∧
    exampleHost.executableModTime = 0 + 1000000000 ∧
    ¬ (0 + 1000000000 < exampleHost.executableModTime) ∧
    exampleFS.paths.contains (exampleHost.pathJoin "web/static" "app.js") = true ∧
    exampleFS.readFile (exampleHost.pathJoin "web/static" "app.js") = some [1, 2, 3] ∧
    (assetHandler exampleHost noSendFile embedServer exampleFS.paths "web/static"
      (requestCtx (scriptRequest [("If-Modified-Since",
          "Thu, 01 Jan 1970 00:00:00 GMT")]))).1.resp.status = 200 ∧
    (assetHandler exampleHost noSendFile embedServer exampleFS.paths "web/static"
      (requestCtx (scriptRequest [("If-Modified-Since",
          "Thu, 01 Jan 1970 00:00:00 GMT")]))).1.resp.sentBody = [1, 2, 3] := by
  refine ⟨?_, ?_, ?_, ?_, ?_, ?_, ?_⟩ <;> decide

/-- C10, amended. Time-based check in the embedded mode, for an asset in the
index and readable: when `If-Modified-Since` parses to `t` and the build time
is strictly before `t + 1s`, the handler answers 304 and no body is
transmitted; when it parses to `t` and the build time is `t + 1s` or later,
or when it does not parse (absent or malformed), the answer is 304 exactly
when `If-None-Match` equals the digest: the time check gives no 304. -/
theorem Static_modified_since (hw : Host) (sendFile : String → Ctx → Ctx × Option String)
    (web : WebServer) (fs : EmbedFS) (index : List String) (root : String) (c : Ctx)
    (data : Bytes) (hwatch : web.watch = false) (hfs : web.embedFiles = some fs)
    (hidx : index.contains (hw.pathJoin root c.req.param) = true)
    (hread : fs.readFile (hw.pathJoin root c.req.param) = some data) :
    (∀ t, hw.parseTime (c.Get "If-Modified-Since") = some t →
      hw.executableModTime < t + 1000000000 →
      (assetHandler hw sendFile web index root c).2 = none ∧
      (assetHandler hw sendFile web index root c).1.resp.status = 304 ∧
      (assetHandler hw sendFile web index root c).1.resp.sentBody = []) ∧
    (∀ t, hw.parseTime (c.Get "If-Modified-Since") = some t →
      t + 1000000000 ≤ hw.executableModTime →
      ((assetHandler hw sendFile web index root c).1.resp.status = 304
        ↔ c.Get "If-None-Match" = hw.md5hex data)) ∧
    (hw.parseTime (c.Get "If-Modified-Since") = none →
      ((assetHandler hw sendFile web index root c).1.resp.status = 304
        ↔ c.Get "If-None-Match" = hw.md5hex data)) := by
  rw [assetHandler_found hw sendFile web fs index root c data hwatch hfs hidx hread]
  have key : notModifiedSince hw (c.Get "If-Modified-Since") = false →
      ((sendAsset hw c c.req.param data).1.resp.status = 304
        ↔ c.Get "If-None-Match" = hw.md5hex data) := by
    intro ht
    constructor
    · intro hs
      by_contra hm
      have h2 := (sendAsset_ok hw c c.req.param data ht hm).2.1
      rw [h2] at hs
      exact absurd hs (by decide)
    · intro hm
      rw [sendAsset_notModified hw c _ data (Or.inr hm)]
      exact SendStatus_status hw c 304
  refine ⟨?_, ?_, ?_⟩
  · intro t hp hlt
    have ht : notModifiedSince hw (c.Get "If-Modified-Since") = true := by
      simp [notModifiedSince, hp, hlt]
    rw [sendAsset_notModified hw c _ data (Or.inl ht)]
    exact ⟨rfl, SendStatus_status hw c 304, SendStatus_sentBody hw c⟩
  · intro t hp hge
    apply key
    simp [notModifiedSince, hp, not_lt.mpr hge]
  · intro hp
    apply key
    simp [notModifiedSince, hp]

/-- C10 amended, at `exampleFS`: the build time is the instant `1s`; a header
of `00:00:01` gives 304, a header of `00:00:00` does not. -/
theorem Static_modified_since_witness :
    (assetHandler exampleHost noSendFile embedServer exampleFS.paths "web/static"
      (requestCtx (scriptRequest [("If-Modified-Since",
          "Thu, 01 Jan 1970 00:00:01 GMT")]))).1.resp.status = 304 ∧
    ((assetHandler exampleHost noSendFile embedServer exampleFS.paths "web/static"
      (requestCtx (scriptRequest [("If-Modified-Since",
          "Thu, 01 Jan 1970 00:00:00 GMT")]))).1.resp.status = 304
      ↔ (requestCtx (scriptRequest [("If-Modified-Since", "Thu, 01 Jan 1970 00:00:00 GMT")])).Get
          "If-None-Match" = exampleHost.md5hex [1, 2, 3]) :=
  ⟨((Static_modified_since exampleHost noSendFile embedServer exampleFS exampleFS.paths
      "web/static" (requestCtx (scriptRequest [("If-Modified-Since",
          "Thu, 01 Jan 1970 00:00:01 GMT")])) [1, 2, 3] rfl rfl (by decide) (by decide)).1
          1000000000 (by decide)
      (by decide)).2.1,
    (Static_modified_since exampleHost noSendFile embedServer exampleFS exampleFS.paths
      "web/static" (requestCtx (scriptRequest [("If-Modified-Since",
          "Thu, 01 Jan 1970 00:00:00 GMT")])) [1, 2, 3] rfl rfl (by decide) (by decide)).2.1 0 (by
          decide)
      (by decide)⟩

end Webserver
